import Mathlib

/-!
# Verification of the az-snooker-master core

Shallow embedding of the snooker game's physics engine, trajectory
predictor, visibility checker, rule engine and AI planner
(`utils/physics.ts`, `utils/ai.ts`, and the `SnookerGame` component),
with theorems settling the specification claims.

JavaScript numbers are modelled as exact real numbers (`ℝ`); `Math.sqrt`
is `Real.sqrt`, `Math.acos` is `Real.arccos`, and so on.  `Math.random()`
draws are passed in explicitly as parameters.  In-place mutation of the
ball array is modelled by state-passing on `List Ball`.
-/

open Classical

noncomputable section

namespace Snooker

/-- `Vector2` from `types.ts`. -/
structure Vector2 where
  x : ℝ
  y : ℝ
deriving DecidableEq

/-- `vecAdd` from `utils/physics.ts`. -/
def vecAdd (v1 v2 : Vector2) : Vector2 := ⟨v1.x + v2.x, v1.y + v2.y⟩

/-- `vecSub` from `utils/physics.ts`. -/
def vecSub (v1 v2 : Vector2) : Vector2 := ⟨v1.x - v2.x, v1.y - v2.y⟩

/-- `vecMult` from `utils/physics.ts`. -/
def vecMult (v : Vector2) (s : ℝ) : Vector2 := ⟨v.x * s, v.y * s⟩

/-- `vecDot` from `utils/physics.ts`. -/
def vecDot (v1 v2 : Vector2) : ℝ := v1.x * v2.x + v1.y * v2.y

/-- `vecLen` from `utils/physics.ts` (`Math.sqrt(x*x + y*y)`). -/
def vecLen (v : Vector2) : ℝ := Real.sqrt (v.x * v.x + v.y * v.y)

/-- `vecNorm` from `utils/physics.ts`: returns the zero vector when the
length is zero, otherwise divides componentwise by the length. -/
def vecNorm (v : Vector2) : Vector2 :=
  if vecLen v = 0 then ⟨0, 0⟩ else ⟨v.x / vecLen v, v.y / vecLen v⟩

/-- `vecDist` from `utils/physics.ts`. -/
def vecDist (v1 v2 : Vector2) : ℝ := vecLen (vecSub v1 v2)

/-- The zero vector (`{x: 0, y: 0}`). -/
def vecZero : Vector2 := ⟨0, 0⟩

-- Basic facts about the vector primitives.

theorem vecLen_nonneg (v : Vector2) : 0 ≤ vecLen v := Real.sqrt_nonneg _

theorem vecLen_eq_zero_iff (v : Vector2) : vecLen v = 0 ↔ v = vecZero := by
  unfold vecLen vecZero
  rw [Real.sqrt_eq_zero (by nlinarith [sq_nonneg v.x, sq_nonneg v.y] : (0:ℝ) ≤ v.x * v.x + v.y * v.y)]
  constructor
  · intro h
    have hx : v.x = 0 := by nlinarith [sq_nonneg v.x, sq_nonneg v.y]
    have hy : v.y = 0 := by nlinarith [sq_nonneg v.x, sq_nonneg v.y]
    cases v
    simp_all
  · intro h
    rw [h]
    norm_num

theorem vecLen_sq (v : Vector2) : vecLen v * vecLen v = v.x * v.x + v.y * v.y := by
  unfold vecLen
  exact Real.mul_self_sqrt (by nlinarith [sq_nonneg v.x, sq_nonneg v.y])

theorem vecLen_mk (a b : ℝ) : vecLen ⟨a, b⟩ = Real.sqrt (a * a + b * b) := rfl

theorem vecLen_vecNorm (v : Vector2) (h : v ≠ vecZero) : vecLen (vecNorm v) = 1 := by
  have hlen : vecLen v ≠ 0 := fun hc => h ((vecLen_eq_zero_iff v).mp hc)
  unfold vecNorm
  rw [if_neg hlen, vecLen_mk]
  rw [show v.x / vecLen v * (v.x / vecLen v) + v.y / vecLen v * (v.y / vecLen v)
      = (v.x * v.x + v.y * v.y) / (vecLen v * vecLen v) by ring]
  rw [vecLen_sq v]
  have hne : v.x * v.x + v.y * v.y ≠ 0 := by
    intro hc
    apply hlen
    unfold vecLen
    rw [hc, Real.sqrt_zero]
  rw [div_self hne, Real.sqrt_one]

/-- **C10**: `vecNorm` is total: on the zero vector it returns the zero
vector (no division by zero), and on every nonzero vector it returns the
vector divided componentwise by its Euclidean length, which is a unit
vector — so every direction computation that normalizes a difference of
positions is well defined even when the two points coincide. -/
theorem vecNorm_total :
    vecNorm vecZero = vecZero ∧
    ∀ v : Vector2, v ≠ vecZero →
      vecNorm v = ⟨v.x / vecLen v, v.y / vecLen v⟩ ∧ vecLen (vecNorm v) = 1 := by
  constructor
  · unfold vecNorm vecLen vecZero
    norm_num
  · intro v hv
    have hlen : vecLen v ≠ 0 := fun hc => hv ((vecLen_eq_zero_iff v).mp hc)
    refine ⟨?_, vecLen_vecNorm v hv⟩
    unfold vecNorm
    rw [if_neg hlen]

/-- `BallType` from `types.ts`. -/
inductive BallType
  | CUE | RED | YELLOW | GREEN | BROWN | BLUE | PINK | BLACK
deriving DecidableEq, Repr

/-- `Ball` from `types.ts` (the `color` display string is omitted: no
claim and no embedded operation reads it). -/
structure Ball where
  id : ℕ
  type : BallType
  pos : Vector2
  vel : Vector2
  radius : ℝ
  mass : ℝ
  potted : Bool
  value : ℤ
deriving DecidableEq

/-- `TableConfig` from `types.ts`. -/
structure TableConfig where
  width : ℝ
  height : ℝ
  pocketRadius : ℝ
  cushionWidth : ℝ

/-- `Spin` from `types.ts`: `x` is side spin, `y` is top/back spin
(`-1` is backspin/draw). -/
structure Spin where
  x : ℝ
  y : ℝ
deriving DecidableEq

/-- `TargetState` from `types.ts` is `'RED' | 'COLOR' | BallType`.  The
`BallType` enum members are string-valued, and `BallType.RED = 'RED'`,
so the literal `'RED'` and the enum member denote the same value; the
embedding therefore identifies them as `ball BallType.RED`. -/
inductive TargetState
  | COLOR
  | ball (t : BallType)
deriving DecidableEq

/-- `BALL_RADIUS` from `types.ts`. -/
def BALL_RADIUS : ℝ := 9.25

/-- `TABLE_WIDTH` from `types.ts`. -/
def TABLE_WIDTH : ℝ := 800

/-- `TABLE_HEIGHT` from `types.ts`. -/
def TABLE_HEIGHT : ℝ := 400

/-- `getBallValue` from `SnookerGame.tsx`. -/
def getBallValue : BallType → ℤ
  | BallType.RED => 1
  | BallType.YELLOW => 2
  | BallType.GREEN => 3
  | BallType.BROWN => 4
  | BallType.BLUE => 5
  | BallType.PINK => 6
  | BallType.BLACK => 7
  | _ => 0

/-- `TABLE_CONFIG` from `SnookerGame.tsx`. -/
def TABLE_CONFIG : TableConfig := ⟨TABLE_WIDTH, TABLE_HEIGHT, 17, 42⟩

/-! ## Physics engine (`utils/physics.ts`) -/

/-- `ROLLING_RESISTANCE` from `utils/physics.ts`. -/
def ROLLING_RESISTANCE : ℝ := 0.12

/-- `WALL_RESTITUTION` from `utils/physics.ts`. -/
def WALL_RESTITUTION : ℝ := 0.80

/-- `BALL_RESTITUTION` from `utils/physics.ts`. -/
def BALL_RESTITUTION : ℝ := 0.92

/-- `STOP_THRESHOLD` from `utils/physics.ts`. -/
def STOP_THRESHOLD : ℝ := 0.15

/-- `SUB_STEPS` from `utils/physics.ts`. -/
def SUB_STEPS : ℕ := 10

/-- `SPIN_POWER_FACTOR` from `utils/physics.ts`. -/
def SPIN_POWER_FACTOR : ℝ := 4.5

/-- `PENETRATION_SLOP` from `utils/physics.ts`. -/
def PENETRATION_SLOP : ℝ := 0.05

/-- The pocket centers computed at the top of `updatePhysics`
(`pOffset = 0`). -/
def pockets (table : TableConfig) : List Vector2 :=
  [ ⟨table.cushionWidth, table.cushionWidth⟩,
    ⟨table.width / 2, table.cushionWidth - 8⟩,
    ⟨table.width - table.cushionWidth, table.cushionWidth⟩,
    ⟨table.cushionWidth, table.height - table.cushionWidth⟩,
    ⟨table.width / 2, table.height + 8 - table.cushionWidth⟩,
    ⟨table.width - table.cushionWidth, table.height - table.cushionWidth⟩ ]

/-- `inPocketZone` from `updatePhysics`: within 1.1× pocket radius of
some pocket center. -/
def inPocketZone (table : TableConfig) (pos : Vector2) : Prop :=
  ∃ p ∈ pockets table, vecDist pos p < table.pocketRadius * 1.1

/-- Step 1 of a sub-step: integration.  In the source the loop runs over
`activeBalls` (the balls not potted when the call began) and moves a ball
whenever `vecLen(ball.vel) > 0.001`.  A ball potted during the call stays
in `activeBalls` but has had its velocity zeroed at capture (and nothing
ever re-accelerates or un-pots a potted ball), so the loop body is a
no-op for it; guarding on the current `potted` flag is therefore
equivalent and is used here. -/
def integrateBall (subDt : ℝ) (b : Ball) : Ball :=
  if b.potted then b
  else if vecLen b.vel > 0.001 then { b with pos := vecAdd b.pos (vecMult b.vel subDt) }
  else b

/-- Step 2 of a sub-step, for one ball: pocket detection.  A non-potted
ball whose center is within 0.95× pocket radius of a pocket center is
marked potted with zero velocity (the source breaks out of the pocket
loop after the first capturing pocket; which pocket captured does not
affect the resulting ball state). -/
def pocketBall (table : TableConfig) (b : Ball) : Ball :=
  if b.potted then b
  else if ∃ p ∈ pockets table, vecDist b.pos p < table.pocketRadius * 0.95 then
    { b with potted := true, vel := vecZero }
  else b

/-- Whether this sub-step's pocket detection captures `b` (and hence
fires the `onPot` callback for it). -/
def capturesBall (table : TableConfig) (b : Ball) : Prop :=
  b.potted = false ∧ ∃ p ∈ pockets table, vecDist b.pos p < table.pocketRadius * 0.95

/-- Step 2 of a sub-step over the whole list, also returning the list of
indices for which `onPot` fired, in ball order (the source calls
`onPot(ball)` at capture; we record the ball's index). -/
def pocketPhase (table : TableConfig) (l : List Ball) : List Ball × List ℕ :=
  (l.map (pocketBall table),
   (List.range l.length).filter
     (fun i => decide (∃ b, l.get? i = some b ∧ capturesBall table b)))

/-- The x-axis clamp of the wall-collision step: `pos.x` is hard-clamped
to the playable rectangle inset by the ball radius. -/
def wallPosX (table : TableConfig) (b : Ball) : ℝ :=
  if b.pos.x < table.cushionWidth + b.radius then table.cushionWidth + b.radius
  else if b.pos.x > table.width - table.cushionWidth - b.radius then
    table.width - table.cushionWidth - b.radius
  else b.pos.x

/-- The x-axis reflection of the wall-collision step: `vel.x` is
reflected into the table and scaled by `WALL_RESTITUTION` when the
x-clamp fired. -/
def wallVelX (table : TableConfig) (b : Ball) : ℝ :=
  if b.pos.x < table.cushionWidth + b.radius then |b.vel.x| * WALL_RESTITUTION
  else if b.pos.x > table.width - table.cushionWidth - b.radius then
    -|b.vel.x| * WALL_RESTITUTION
  else b.vel.x

/-- Whether the x-clamp fired (`collidedX`). -/
def wallCollidedX (table : TableConfig) (b : Ball) : Prop :=
  b.pos.x < table.cushionWidth + b.radius ∨
    b.pos.x > table.width - table.cushionWidth - b.radius

/-- y-axis analogue of `wallPosX`. -/
def wallPosY (table : TableConfig) (b : Ball) : ℝ :=
  if b.pos.y < table.cushionWidth + b.radius then table.cushionWidth + b.radius
  else if b.pos.y > table.height - table.cushionWidth - b.radius then
    table.height - table.cushionWidth - b.radius
  else b.pos.y

/-- y-axis analogue of `wallVelX`. -/
def wallVelY (table : TableConfig) (b : Ball) : ℝ :=
  if b.pos.y < table.cushionWidth + b.radius then |b.vel.y| * WALL_RESTITUTION
  else if b.pos.y > table.height - table.cushionWidth - b.radius then
    -|b.vel.y| * WALL_RESTITUTION
  else b.vel.y

/-- Whether the y-clamp fired (`collidedY`). -/
def wallCollidedY (table : TableConfig) (b : Ball) : Prop :=
  b.pos.y < table.cushionWidth + b.radius ∨
    b.pos.y > table.height - table.cushionWidth - b.radius

/-- The side-spin cushion impulse applied to the cue ball after the
clamp (`spinForce = spin.x * 0.6`, impulse `spinForce * speed * 0.15` on
the axis orthogonal to the collided cushion, only above speed 1). -/
def wallSpinAdjust (table : TableConfig) (spin : Spin) (b b1 : Ball) : Ball :=
  if vecLen b1.vel > 1 then
    { b1 with vel :=
        ⟨(if wallCollidedY table b then b1.vel.x + spin.x * 0.6 * (vecLen b1.vel * 0.15)
          else b1.vel.x),
         (if wallCollidedX table b then b1.vel.y + spin.x * 0.6 * (vecLen b1.vel * 0.15)
          else b1.vel.y)⟩ }
  else b1

/-- Step 3 of a sub-step, for one ball: wall collision with hard clamp,
restitution `WALL_RESTITUTION`, pocket-mouth skip, and the side-spin
cushion impulse for the cue ball. -/
def wallBall (table : TableConfig) (spin : Spin) (b : Ball) : Ball :=
  if b.potted then b
  else if inPocketZone table b.pos then b
  else
    let b1 : Ball := { b with pos := ⟨wallPosX table b, wallPosY table b⟩,
                              vel := ⟨wallVelX table b, wallVelY table b⟩ }
    if b.type = BallType.CUE ∧ spin.x ≠ 0 then wallSpinAdjust table spin b b1
    else b1

/-- The contact normal `n = vecNorm(vecSub(b1.pos, b2.pos))` of a
ball-ball collision. -/
def collideNormal (b1 b2 : Ball) : Vector2 := vecNorm (vecSub b1.pos b2.pos)

/-- `velAlongNormal`: the relative velocity of the pair projected on the
contact normal. -/
def collideVAN (b1 b2 : Ball) : ℝ := vecDot (vecSub b1.vel b2.vel) (collideNormal b1 b2)

/-- `correctionMag = max(0, overlap - PENETRATION_SLOP)`. -/
def collideCorrectionMag (b1 b2 : Ball) : ℝ :=
  max 0 ((b1.radius + b2.radius - vecDist b1.pos b2.pos) - PENETRATION_SLOP)

/-- Post-separation position of the first ball of a colliding pair. -/
def collidePos1 (b1 b2 : Ball) : Vector2 :=
  if collideCorrectionMag b1 b2 > 0 then
    vecAdd b1.pos (vecMult (collideNormal b1 b2) (collideCorrectionMag b1 b2 * 0.5))
  else b1.pos

/-- Post-separation position of the second ball of a colliding pair. -/
def collidePos2 (b1 b2 : Ball) : Vector2 :=
  if collideCorrectionMag b1 b2 > 0 then
    vecSub b2.pos (vecMult (collideNormal b1 b2) (collideCorrectionMag b1 b2 * 0.5))
  else b2.pos

/-- `impulse = j / 2` with `j = -(1 + BALL_RESTITUTION) * velAlongNormal`. -/
def collideImpulse (b1 b2 : Ball) : ℝ :=
  -(1 + BALL_RESTITUTION) * collideVAN b1 b2 / 2

/-- The extra follow/draw/side impulse added to the cue ball's velocity
when spin is active and the impact is strong enough. -/
def collideSpinPair (spin : Spin) (b1 b2 : Ball) (v1 v2 : Vector2) : Ball × Ball :=
  let n := collideNormal b1 b2
  let dirToObject := if b1.type = BallType.CUE then vecMult n (-1) else n
  let spinMagnitude := |collideVAN b1 b2| * SPIN_POWER_FACTOR
  let spinImpulseY := vecMult dirToObject (spin.y * spinMagnitude * 0.30)
  let tangent : Vector2 := ⟨-dirToObject.y, dirToObject.x⟩
  let spinImpulseX := vecMult tangent (spin.x * spinMagnitude * 0.08)
  if b1.type = BallType.CUE then
    ({ b1 with pos := collidePos1 b1 b2,
               vel := vecAdd (vecAdd v1 spinImpulseY) spinImpulseX },
     { b2 with pos := collidePos2 b1 b2, vel := v2 })
  else
    ({ b1 with pos := collidePos1 b1 b2, vel := v1 },
     { b2 with pos := collidePos2 b1 b2,
               vel := vecAdd (vecAdd v2 spinImpulseY) spinImpulseX })

/-- Step 4 of a sub-step, for one unordered pair: positional separation
with slop, normal impulse with restitution `BALL_RESTITUTION` split
evenly, and the spin impulse when one of the pair is the cue ball.
(The `onCollision` report does not change ball state and is not
modelled.) -/
def collidePair (spin : Spin) (b1 b2 : Ball) : Ball × Ball :=
  if vecDist b1.pos b2.pos < b1.radius + b2.radius then
    if collideVAN b1 b2 > 0 then
      ({ b1 with pos := collidePos1 b1 b2 }, { b2 with pos := collidePos2 b1 b2 })
    else
      let impulseVec := vecMult (collideNormal b1 b2) (collideImpulse b1 b2)
      let v1 := vecAdd b1.vel impulseVec
      let v2 := vecSub b2.vel impulseVec
      if (b1.type = BallType.CUE ∨ b2.type = BallType.CUE) ∧ (spin.x ≠ 0 ∨ spin.y ≠ 0) then
        if |collideVAN b1 b2| > 0.1 then collideSpinPair spin b1 b2 v1 v2
        else ({ b1 with pos := collidePos1 b1 b2, vel := v1 },
              { b2 with pos := collidePos2 b1 b2, vel := v2 })
      else ({ b1 with pos := collidePos1 b1 b2, vel := v1 },
            { b2 with pos := collidePos2 b1 b2, vel := v2 })
  else (b1, b2)

/-- One iteration of the doubly nested pair loop, acting on entries `i`
and `j` of the ball list.  The source iterates over `currentActive`
(the non-potted balls, in list order); no ball is potted during the pair
phase, so iterating over all index pairs and skipping pairs where either
ball is potted visits exactly the same interacting pairs in the same
order. -/
def pairStep (spin : Spin) (l : List Ball) (ij : ℕ × ℕ) : List Ball :=
  match l.get? ij.1, l.get? ij.2 with
  | some b1, some b2 =>
      if b1.potted ∨ b2.potted then l
      else
        let r := collidePair spin b1 b2
        (l.set ij.1 r.1).set ij.2 r.2
  | _, _ => l

/-- The index pairs `(i, j)` with `i < j < n`, in the source's loop
order. -/
def pairIndices (n : ℕ) : List (ℕ × ℕ) :=
  (List.range n).flatMap (fun i => ((List.range n).filter (fun j => i < j)).map (fun j => (i, j)))

/-- Step 4 of a sub-step over the whole list. -/
def ballBallPhase (spin : Spin) (l : List Ball) : List Ball :=
  (pairIndices l.length).foldl (pairStep spin) l

/-- One physics sub-step: integrate, pocket detection, wall collisions,
ball-ball collisions; `onPot` indices are accumulated. -/
def subStep (table : TableConfig) (spin : Spin) (subDt : ℝ)
    (s : List Ball × List ℕ) : List Ball × List ℕ :=
  let l1 := s.1.map (integrateBall subDt)
  let pp := pocketPhase table l1
  let l3 := pp.1.map (wallBall table spin)
  let l4 := ballBallPhase spin l3
  (l4, s.2 ++ pp.2)

/-- The rolling-friction pass at the end of `updatePhysics`, for one
ball. -/
def applyFriction (spin : Spin) (timeScale : ℝ) (b : Ball) : Ball :=
  if b.potted then b
  else
    let speed := vecLen b.vel
    if speed < STOP_THRESHOLD then { b with vel := vecZero }
    else
      let drag0 := ROLLING_RESISTANCE * timeScale
      let drag := if b.type = BallType.CUE then drag0 * (1.0 - spin.y * 0.2) else drag0
      let drop := drag
      let newSpeed := max 0 (speed - drop)
      if newSpeed < STOP_THRESHOLD * 2 then
        { b with vel := vecMult (vecNorm b.vel) (newSpeed * 0.90) }
      else
        { b with vel := vecMult (vecNorm b.vel) newSpeed }

/-- `updatePhysics` from `utils/physics.ts`: ten sub-steps followed by
the friction pass.  Returns the final ball list together with the list
of indices (into the input list) for which `onPot` fired, in firing
order. -/
def updatePhysics (balls : List Ball) (table : TableConfig) (spin : Spin)
    (dt : ℝ) : List Ball × List ℕ :=
  let timeScale := dt * 60
  let subDt := timeScale / (SUB_STEPS : ℝ)
  let s := (List.range SUB_STEPS).foldl (fun s _ => subStep table spin subDt s) (balls, [])
  (s.1.map (applyFriction spin timeScale), s.2)

theorem vecLen_vecMult (v : Vector2) (s : ℝ) : vecLen (vecMult v s) = |s| * vecLen v := by
  unfold vecMult vecLen
  rw [show v.x * s * (v.x * s) + v.y * s * (v.y * s) = s * s * (v.x * v.x + v.y * v.y) by ring]
  rw [Real.sqrt_mul (mul_self_nonneg s), Real.sqrt_mul_self_eq_abs]

theorem vecLen_vecZero : vecLen vecZero = 0 := by
  unfold vecLen vecZero
  norm_num

/-- The speed left after the friction pass, on the main branch: the
damped `newSpeed`. -/
theorem applyFriction_speed (spin : Spin) (ts : ℝ) (b : Ball)
    (hp : b.potted = false) (hs : ¬ vecLen b.vel < STOP_THRESHOLD) :
    vecLen ((applyFriction spin ts b).vel) =
      (let speed := vecLen b.vel
       let drag := if b.type = BallType.CUE
         then ROLLING_RESISTANCE * ts * (1.0 - spin.y * 0.2) else ROLLING_RESISTANCE * ts
       let newSpeed := max 0 (speed - drag)
       if newSpeed < STOP_THRESHOLD * 2 then newSpeed * 0.90 else newSpeed) := by
  have hvne : b.vel ≠ vecZero := by
    intro hz
    apply hs
    rw [hz, vecLen_vecZero]
    unfold STOP_THRESHOLD
    norm_num
  have hnorm : vecLen (vecNorm b.vel) = 1 := vecLen_vecNorm _ hvne
  unfold applyFriction
  rw [hp]
  simp only [Bool.false_eq_true, if_false, if_neg hs]
  split_ifs <;>
      simp only [vecLen_vecMult, hnorm, mul_one] <;>
      rw [abs_of_nonneg (by positivity)]

/-- The near-stop damping map `s ↦ if s < 2·STOP_THRESHOLD then 0.9·s
else s` is monotone on nonnegative speeds. -/
theorem dampen_mono (s1 s2 : ℝ) (_h1 : 0 ≤ s1) (h : s1 ≤ s2) :
    (if s1 < STOP_THRESHOLD * 2 then s1 * 0.90 else s1) ≤
      (if s2 < STOP_THRESHOLD * 2 then s2 * 0.90 else s2) := by
  unfold STOP_THRESHOLD
  by_cases c1 : s1 < (0.15 : ℝ) * 2 <;> by_cases c2 : s2 < (0.15 : ℝ) * 2 <;>
    simp only [if_pos, if_neg, c1, c2, if_true, if_false] <;> nlinarith

/-- Friction never increases a ball's speed (for spins in the valid
range `spin.y ≤ 1` and nonnegative elapsed time). -/
theorem applyFriction_speed_le (spin : Spin) (ts : ℝ) (b : Ball)
    (hts : 0 ≤ ts) (hsy : spin.y ≤ 1) :
    vecLen ((applyFriction spin ts b).vel) ≤ vecLen b.vel := by
  by_cases hp : b.potted
  · unfold applyFriction
    rw [if_pos hp]
  · have hp' : b.potted = false := by simpa using hp
    by_cases hs : vecLen b.vel < STOP_THRESHOLD
    · unfold applyFriction
      rw [hp']
      simp only [Bool.false_eq_true, if_false, if_pos hs, vecLen_vecZero]
      exact vecLen_nonneg _
    · rw [applyFriction_speed spin ts b hp' hs]
      have hsp : 0 ≤ vecLen b.vel := vecLen_nonneg _
      have hdrag : 0 ≤ (if b.type = BallType.CUE
          then ROLLING_RESISTANCE * ts * (1.0 - spin.y * 0.2) else ROLLING_RESISTANCE * ts) := by
        by_cases hc : b.type = BallType.CUE <;>
          simp only [if_pos, if_neg, hc, if_true, if_false] <;> unfold ROLLING_RESISTANCE <;>
          nlinarith
      set drag := (if b.type = BallType.CUE
          then ROLLING_RESISTANCE * ts * (1.0 - spin.y * 0.2) else ROLLING_RESISTANCE * ts) with hd
      simp only
      have hns : max 0 (vecLen b.vel - drag) ≤ vecLen b.vel := by
        apply max_le hsp
        linarith
      calc (if max 0 (vecLen b.vel - drag) < STOP_THRESHOLD * 2
              then max 0 (vecLen b.vel - drag) * 0.90 else max 0 (vecLen b.vel - drag))
          ≤ (if vecLen b.vel < STOP_THRESHOLD * 2
              then vecLen b.vel * 0.90 else vecLen b.vel) :=
            dampen_mono _ _ (le_max_left 0 _) hns
        _ ≤ vecLen b.vel := by
            by_cases hc : vecLen b.vel < STOP_THRESHOLD * 2 <;>
              simp only [if_pos, if_neg, hc, if_true, if_false] <;> nlinarith

/-- A concrete cue ball moving at speed 10 through the middle of the
table, used to test the friction pass. -/
def frictionTestBall : Ball :=
  { id := 0, type := BallType.CUE, pos := ⟨400, 230⟩, vel := ⟨10, 0⟩,
    radius := BALL_RADIUS, mass := 1, potted := false, value := 0 }

theorem vecLen_frictionTestBall : vecLen frictionTestBall.vel = 10 := by
  show vecLen ⟨10, 0⟩ = 10
  rw [vecLen_mk]
  rw [show (10 : ℝ) * 10 + 0 * 0 = 10 * 10 by norm_num]
  rw [Real.sqrt_mul_self_eq_abs]
  norm_num

/-- **C2 counterexample**: with full back-spin (`spin.y = -1`) the cue
ball retains *less* speed after the friction pass than with zero spin
(9.856 versus 9.88 from speed 10 at `timeScale = 1`), refuting the claim
that back-spin reduces the effective drag. -/
theorem backspin_increases_drag_cex :
    vecLen ((applyFriction ⟨0, -1⟩ 1 frictionTestBall).vel) <
      vecLen ((applyFriction ⟨0, 0⟩ 1 frictionTestBall).vel) := by
  have hs : ¬ vecLen frictionTestBall.vel < STOP_THRESHOLD := by
    rw [vecLen_frictionTestBall]
    unfold STOP_THRESHOLD
    norm_num
  rw [applyFriction_speed ⟨0, -1⟩ 1 frictionTestBall rfl hs,
      applyFriction_speed ⟨0, 0⟩ 1 frictionTestBall rfl hs]
  simp only [vecLen_frictionTestBall]
  have hc : frictionTestBall.type = BallType.CUE := rfl
  rw [if_pos hc, if_pos hc]
  unfold ROLLING_RESISTANCE STOP_THRESHOLD
  norm_num

/-- **C2** (amended): in the friction pass of `updatePhysics`, back-spin
on the cue ball (`spin.y ≤ 0`, with `-1` full backspin) multiplies the
drag by `1 - 0.2·spin.y ≥ 1`, so for the same entry speed the cue ball
retains *at most* the speed it would retain with zero spin — back-spin
increases the effective drag; it is top-spin (`spin.y > 0`) that
reduces it. -/
theorem backspin_drag_amended (sx sx' sy ts : ℝ) (b : Ball)
    (hts : 0 ≤ ts) (hsy : sy ≤ 0) :
    vecLen ((applyFriction ⟨sx, sy⟩ ts b).vel) ≤
      vecLen ((applyFriction ⟨sx', 0⟩ ts b).vel) := by
  by_cases hp : b.potted
  · unfold applyFriction
    simp only [if_pos hp]
    exact le_refl _
  · have hp' : b.potted = false := by simpa using hp
    by_cases hs : vecLen b.vel < STOP_THRESHOLD
    · unfold applyFriction
      rw [hp']
      simp only [Bool.false_eq_true, if_false, if_pos hs]
      exact le_refl _
    · rw [applyFriction_speed ⟨sx, sy⟩ ts b hp' hs, applyFriction_speed ⟨sx', 0⟩ ts b hp' hs]
      simp only
      have hdrag : (if b.type = BallType.CUE
            then ROLLING_RESISTANCE * ts * (1.0 - (0:ℝ) * 0.2) else ROLLING_RESISTANCE * ts) ≤
          (if b.type = BallType.CUE
            then ROLLING_RESISTANCE * ts * (1.0 - sy * 0.2) else ROLLING_RESISTANCE * ts) := by
        by_cases hc : b.type = BallType.CUE <;>
          simp only [if_pos, if_neg, hc, if_true, if_false] <;> unfold ROLLING_RESISTANCE <;>
          nlinarith
      apply dampen_mono _ _ (le_max_left 0 _)
      apply max_le (le_max_left 0 _)
      apply le_max_of_le_right
      linarith

/-- Witness for the amended C2 at the concrete cue ball above with full
back-spin. -/
theorem backspin_drag_amended_witness :
    vecLen ((applyFriction ⟨0, -1⟩ 1 frictionTestBall).vel) ≤
      vecLen ((applyFriction ⟨0, 0⟩ 1 frictionTestBall).vel) :=
  backspin_drag_amended 0 0 (-1) 1 frictionTestBall (by norm_num) (by norm_num)

/-! ## Kinetic energy (claim C3) -/

/-- Kinetic energy of one ball, `½·m·|vel|²`. -/
def ke (b : Ball) : ℝ := 1 / 2 * b.mass * (vecLen b.vel) ^ 2

/-- Total kinetic energy of a ball list. -/
def totalKE (l : List Ball) : ℝ := (l.map ke).sum

theorem ke_le_of_speed_le (b b' : Ball) (hm : b'.mass = b.mass) (hm0 : 0 ≤ b.mass)
    (hv : vecLen b'.vel ≤ vecLen b.vel) : ke b' ≤ ke b := by
  unfold ke
  rw [hm]
  have h2 : (vecLen b'.vel) ^ 2 ≤ (vecLen b.vel) ^ 2 :=
    pow_le_pow_left₀ (vecLen_nonneg _) hv 2
  nlinarith

theorem totalKE_map_le (l : List Ball) (f : Ball → Ball)
    (h : ∀ b ∈ l, ke (f b) ≤ ke b) : totalKE (l.map f) ≤ totalKE l := by
  unfold totalKE
  rw [List.map_map]
  exact List.sum_le_sum h

/-- Generic invariant preservation for `List.foldl`. -/
theorem foldl_invariant {α β : Type} (P : β → Prop) (f : β → α → β) (l : List α) (s : β)
    (hs : P s) (hstep : ∀ t a, a ∈ l → P t → P (f t a)) : P (l.foldl f s) := by
  induction l generalizing s with
  | nil => exact hs
  | cons a t ih =>
      exact ih (f s a) (hstep s a (List.mem_cons_self a t) hs)
        (fun u b hb hu => hstep u b (List.mem_cons_of_mem a hb) hu)

/-- Sum over a `List.set`: replacing entry `i` (which holds `b`) by `b'`
changes the sum of `f` by `f b' - f b`. -/
theorem sum_map_set (f : Ball → ℝ) (l : List Ball) (i : ℕ) (b b' : Ball)
    (h : l.get? i = some b) :
    ((l.set i b').map f).sum = (l.map f).sum - f b + f b' := by
  induction l generalizing i with
  | nil => simp at h
  | cons a t ih =>
      cases i with
      | zero =>
          simp only [List.get?] at h
          injection h with h
          subst h
          simp [List.set]
          ring
      | succ k =>
          simp only [List.get?] at h
          simp only [List.set, List.map, List.sum_cons, ih k h]
          ring

theorem get?_eq_some_mem {l : List Ball} {i : ℕ} {b : Ball} (h : l.get? i = some b) : b ∈ l :=
  List.get?_mem h

/-! Mass preservation by every physics phase. -/

theorem integrateBall_mass (subDt : ℝ) (b : Ball) : (integrateBall subDt b).mass = b.mass := by
  unfold integrateBall
  split_ifs <;> rfl

theorem integrateBall_vel (subDt : ℝ) (b : Ball) : (integrateBall subDt b).vel = b.vel := by
  unfold integrateBall
  split_ifs <;> rfl

theorem pocketBall_mass (table : TableConfig) (b : Ball) :
    (pocketBall table b).mass = b.mass := by
  unfold pocketBall
  split_ifs <;> rfl

theorem pocketBall_ke (table : TableConfig) (b : Ball) (hm0 : 0 ≤ b.mass) :
    ke (pocketBall table b) ≤ ke b := by
  apply ke_le_of_speed_le _ _ (pocketBall_mass table b) hm0
  unfold pocketBall
  split_ifs
  · exact le_refl _
  · show vecLen vecZero ≤ _
    rw [vecLen_vecZero]
    exact vecLen_nonneg _
  · exact le_refl _

theorem wallSpinAdjust_mass (table : TableConfig) (spin : Spin) (b b1 : Ball) :
    (wallSpinAdjust table spin b b1).mass = b1.mass := by
  unfold wallSpinAdjust
  split_ifs <;> rfl

theorem wallBall_mass (table : TableConfig) (spin : Spin) (b : Ball) :
    (wallBall table spin b).mass = b.mass := by
  unfold wallBall
  split_ifs <;> first | rfl | (rw [wallSpinAdjust_mass])

theorem vecLen_le_of_abs_le {a a' c c' : ℝ} (ha : |a'| ≤ |a|) (hc : |c'| ≤ |c|) :
    vecLen ⟨a', c'⟩ ≤ vecLen ⟨a, c⟩ := by
  rw [vecLen_mk, vecLen_mk]
  apply Real.sqrt_le_sqrt
  have h1 : a' * a' ≤ a * a := by
    calc a' * a' = |a'| * |a'| := (abs_mul_abs_self a').symm
      _ ≤ |a| * |a| := mul_self_le_mul_self (abs_nonneg _) ha
      _ = a * a := abs_mul_abs_self a
  have h2 : c' * c' ≤ c * c := by
    calc c' * c' = |c'| * |c'| := (abs_mul_abs_self c').symm
      _ ≤ |c| * |c| := mul_self_le_mul_self (abs_nonneg _) hc
      _ = c * c := abs_mul_abs_self c
  linarith

theorem abs_wallVelX_le (table : TableConfig) (b : Ball) :
    |wallVelX table b| ≤ |b.vel.x| := by
  have habs : |WALL_RESTITUTION| = 0.80 := by
    rw [abs_of_nonneg] <;> norm_num [WALL_RESTITUTION]
  unfold wallVelX
  split_ifs <;>
    first
      | exact le_refl _
      | (simp only [abs_mul, abs_neg, abs_abs, habs]; nlinarith [abs_nonneg b.vel.x])

theorem abs_wallVelY_le (table : TableConfig) (b : Ball) :
    |wallVelY table b| ≤ |b.vel.y| := by
  have habs : |WALL_RESTITUTION| = 0.80 := by
    rw [abs_of_nonneg] <;> norm_num [WALL_RESTITUTION]
  unfold wallVelY
  split_ifs <;>
    first
      | exact le_refl _
      | (simp only [abs_mul, abs_neg, abs_abs, habs]; nlinarith [abs_nonneg b.vel.y])

theorem wallBall_ke (table : TableConfig) (b : Ball) (hm0 : 0 ≤ b.mass) :
    ke (wallBall table ⟨0, 0⟩ b) ≤ ke b := by
  apply ke_le_of_speed_le _ _ (wallBall_mass table ⟨0, 0⟩ b) hm0
  unfold wallBall
  have hspin : ¬ (b.type = BallType.CUE ∧ (⟨0, 0⟩ : Spin).x ≠ 0) := by
    rintro ⟨-, hx⟩
    exact hx rfl
  split_ifs with h1 h2
  · exact le_refl _
  · exact le_refl _
  · simp only [if_neg hspin]
    have hv : b.vel = ⟨b.vel.x, b.vel.y⟩ := rfl
    calc vecLen ⟨wallVelX table b, wallVelY table b⟩
        ≤ vecLen ⟨b.vel.x, b.vel.y⟩ :=
          vecLen_le_of_abs_le (abs_wallVelX_le table b) (abs_wallVelY_le table b)
      _ = vecLen b.vel := by rw [← hv]

theorem ke_eq (b : Ball) : ke b = 1 / 2 * b.mass * (b.vel.x * b.vel.x + b.vel.y * b.vel.y) := by
  unfold ke
  rw [sq, vecLen_sq]

/-- The contact normal is a unit vector or the zero vector. -/
theorem collideNormal_unit_or_zero (b1 b2 : Ball) :
    (collideNormal b1 b2).x * (collideNormal b1 b2).x +
      (collideNormal b1 b2).y * (collideNormal b1 b2).y = 1 ∨
    collideNormal b1 b2 = vecZero := by
  unfold collideNormal
  by_cases h : vecSub b1.pos b2.pos = vecZero
  · right
    rw [h]
    unfold vecNorm
    rw [if_pos (by rw [vecLen_eq_zero_iff])]
    rfl
  · left
    have h1 : vecLen (vecNorm (vecSub b1.pos b2.pos)) = 1 := vecLen_vecNorm _ h
    have := vecLen_sq (vecNorm (vecSub b1.pos b2.pos))
    rw [h1] at this
    linarith

/-- Core algebraic fact for claim C3: the even-split normal impulse with
restitution `0.92 < 1`, applied to an approaching pair, does not
increase `|v1|² + |v2|²`. -/
theorem impulse_energy (nx ny vx1 vy1 vx2 vy2 : ℝ)
    (hn : nx * nx + ny * ny = 1 ∨ (nx = 0 ∧ ny = 0)) :
    (vx1 + nx * (-(1 + BALL_RESTITUTION) * ((vx1 - vx2) * nx + (vy1 - vy2) * ny) / 2)) ^ 2 +
      (vy1 + ny * (-(1 + BALL_RESTITUTION) * ((vx1 - vx2) * nx + (vy1 - vy2) * ny) / 2)) ^ 2 +
      ((vx2 - nx * (-(1 + BALL_RESTITUTION) * ((vx1 - vx2) * nx + (vy1 - vy2) * ny) / 2)) ^ 2 +
      (vy2 - ny * (-(1 + BALL_RESTITUTION) * ((vx1 - vx2) * nx + (vy1 - vy2) * ny) / 2)) ^ 2) ≤
    vx1 ^ 2 + vy1 ^ 2 + (vx2 ^ 2 + vy2 ^ 2) := by
  unfold BALL_RESTITUTION
  rcases hn with hn | ⟨hx, hy⟩
  · set van := (vx1 - vx2) * nx + (vy1 - vy2) * ny with hvan
    set imp := -(1 + (0.92 : ℝ)) * van / 2 with himp
    have hkey :
        (vx1 + nx * imp) ^ 2 + (vy1 + ny * imp) ^ 2 +
          ((vx2 - nx * imp) ^ 2 + (vy2 - ny * imp) ^ 2) -
          (vx1 ^ 2 + vy1 ^ 2 + (vx2 ^ 2 + vy2 ^ 2))
        = 2 * imp * van + 2 * imp ^ 2 * (nx * nx + ny * ny) := by
      rw [hvan]
      ring
    rw [hn] at hkey
    have himpval : imp = -0.96 * van := by rw [himp]; ring
    rw [himpval] at hkey
    rw [himpval]
    nlinarith [sq_nonneg van, hkey]
  · subst hx
    subst hy
    ring_nf
    exact le_refl _

theorem collideSpinPair_mass (spin : Spin) (b1 b2 : Ball) (v1 v2 : Vector2) :
    (collideSpinPair spin b1 b2 v1 v2).1.mass = b1.mass ∧
      (collideSpinPair spin b1 b2 v1 v2).2.mass = b2.mass := by
  unfold collideSpinPair
  split_ifs <;> exact ⟨rfl, rfl⟩

theorem collidePair_mass (spin : Spin) (b1 b2 : Ball) :
    (collidePair spin b1 b2).1.mass = b1.mass ∧
      (collidePair spin b1 b2).2.mass = b2.mass := by
  unfold collidePair
  split_ifs <;> first | exact ⟨rfl, rfl⟩ | exact collideSpinPair_mass _ _ _ _ _

/-- The ball-ball impulse exchange never increases the pair's kinetic
energy when no spin is applied (equal masses). -/
theorem collidePair_ke (b1 b2 : Ball) (hm1 : b1.mass = 1) (hm2 : b2.mass = 1) :
    ke (collidePair ⟨0, 0⟩ b1 b2).1 + ke (collidePair ⟨0, 0⟩ b1 b2).2 ≤ ke b1 + ke b2 := by
  have hspin : ¬ ((b1.type = BallType.CUE ∨ b2.type = BallType.CUE) ∧
      ((⟨0, 0⟩ : Spin).x ≠ 0 ∨ (⟨0, 0⟩ : Spin).y ≠ 0)) := by
    rintro ⟨-, h | h⟩ <;> exact h rfl
  unfold collidePair
  by_cases h1 : vecDist b1.pos b2.pos < b1.radius + b2.radius
  · rw [if_pos h1]
    by_cases h2 : collideVAN b1 b2 > 0
    · rw [if_pos h2]
      exact le_refl _
    · rw [if_neg h2]
      simp only [if_neg hspin]
      have hunit := collideNormal_unit_or_zero b1 b2
      have hunit' : (collideNormal b1 b2).x * (collideNormal b1 b2).x +
          (collideNormal b1 b2).y * (collideNormal b1 b2).y = 1 ∨
          ((collideNormal b1 b2).x = 0 ∧ (collideNormal b1 b2).y = 0) := by
        rcases hunit with h | h
        · exact Or.inl h
        · right
          rw [h]
          exact ⟨rfl, rfl⟩
      have key := impulse_energy (collideNormal b1 b2).x (collideNormal b1 b2).y
        b1.vel.x b1.vel.y b2.vel.x b2.vel.y hunit'
      have himp : collideImpulse b1 b2
          = -(1 + BALL_RESTITUTION) *
              ((b1.vel.x - b2.vel.x) * (collideNormal b1 b2).x +
               (b1.vel.y - b2.vel.y) * (collideNormal b1 b2).y) / 2 := rfl
      rw [← himp] at key
      show ke { b1 with pos := collidePos1 b1 b2,
                        vel := vecAdd b1.vel (vecMult (collideNormal b1 b2) (collideImpulse b1 b2)) } +
          ke { b2 with pos := collidePos2 b1 b2,
                       vel := vecSub b2.vel (vecMult (collideNormal b1 b2) (collideImpulse b1 b2)) } ≤
          ke b1 + ke b2
      rw [ke_eq, ke_eq, ke_eq, ke_eq]
      simp only [hm1, hm2]
      show 1 / 2 * 1 *
           ((b1.vel.x + (collideNormal b1 b2).x * collideImpulse b1 b2) *
              (b1.vel.x + (collideNormal b1 b2).x * collideImpulse b1 b2) +
            (b1.vel.y + (collideNormal b1 b2).y * collideImpulse b1 b2) *
              (b1.vel.y + (collideNormal b1 b2).y * collideImpulse b1 b2)) +
          1 / 2 * 1 *
           ((b2.vel.x - (collideNormal b1 b2).x * collideImpulse b1 b2) *
              (b2.vel.x - (collideNormal b1 b2).x * collideImpulse b1 b2) +
            (b2.vel.y - (collideNormal b1 b2).y * collideImpulse b1 b2) *
              (b2.vel.y - (collideNormal b1 b2).y * collideImpulse b1 b2)) ≤
          1 / 2 * 1 * (b1.vel.x * b1.vel.x + b1.vel.y * b1.vel.y) +
          1 / 2 * 1 * (b2.vel.x * b2.vel.x + b2.vel.y * b2.vel.y)
      nlinarith [key]
  · rw [if_neg h1]

theorem integrateBall_ke (subDt : ℝ) (b : Ball) : ke (integrateBall subDt b) = ke b := by
  unfold integrateBall
  split_ifs <;> rfl

theorem applyFriction_mass (spin : Spin) (ts : ℝ) (b : Ball) :
    (applyFriction spin ts b).mass = b.mass := by
  unfold applyFriction
  dsimp only
  split_ifs <;> rfl

theorem applyFriction_ke (ts : ℝ) (b : Ball) (hts : 0 ≤ ts) (hm : b.mass = 1) :
    ke (applyFriction ⟨0, 0⟩ ts b) ≤ ke b := by
  apply ke_le_of_speed_le _ _ (applyFriction_mass ⟨0, 0⟩ ts b) (by rw [hm]; norm_num)
  exact applyFriction_speed_le ⟨0, 0⟩ ts b hts (by norm_num)

theorem pairStep_mass (spin : Spin) (l : List Ball) (ij : ℕ × ℕ)
    (hm : ∀ b ∈ l, b.mass = 1) : ∀ b ∈ pairStep spin l ij, b.mass = 1 := by
  intro b hb
  unfold pairStep at hb
  rcases e1 : l.get? ij.1 with _ | b1 <;> rcases e2 : l.get? ij.2 with _ | b2 <;>
    simp only [e1, e2] at hb
  · exact hm b hb
  · exact hm b hb
  · exact hm b hb
  · split_ifs at hb with hp
    · exact hm b hb
    · rcases List.mem_or_eq_of_mem_set hb with hb' | hb'
      · rcases List.mem_or_eq_of_mem_set hb' with hb'' | hb''
        · exact hm b hb''
        · rw [hb'', (collidePair_mass spin b1 b2).1]
          exact hm b1 (List.get?_mem e1)
      · rw [hb', (collidePair_mass spin b1 b2).2]
        exact hm b2 (List.get?_mem e2)

theorem pairStep_ke (l : List Ball) (ij : ℕ × ℕ) (hij : ij.1 ≠ ij.2)
    (hm : ∀ b ∈ l, b.mass = 1) : totalKE (pairStep ⟨0, 0⟩ l ij) ≤ totalKE l := by
  unfold pairStep
  rcases e1 : l.get? ij.1 with _ | b1 <;> rcases e2 : l.get? ij.2 with _ | b2 <;> simp only
  · exact le_refl _
  · exact le_refl _
  · exact le_refl _
  · split_ifs with hp
    · exact le_refl _
    · have hset2 : (l.set ij.1 (collidePair ⟨0, 0⟩ b1 b2).1).get? ij.2 = some b2 := by
        rw [List.get?_set_ne _ _ hij]
        exact e2
      have h1 := sum_map_set ke l ij.1 b1 (collidePair ⟨0, 0⟩ b1 b2).1 e1
      have h2 := sum_map_set ke (l.set ij.1 (collidePair ⟨0, 0⟩ b1 b2).1) ij.2 b2
        (collidePair ⟨0, 0⟩ b1 b2).2 hset2
      have hcol := collidePair_ke b1 b2 (hm b1 (List.get?_mem e1)) (hm b2 (List.get?_mem e2))
      unfold totalKE at *
      rw [h2, h1]
      linarith

theorem pairIndices_lt (n : ℕ) : ∀ ij ∈ pairIndices n, ij.1 < ij.2 := by
  intro ij hij
  simp only [pairIndices, List.mem_flatMap, List.mem_map, List.mem_filter, List.mem_range,
    decide_eq_true_eq] at hij
  obtain ⟨i, _, j, ⟨_, hlt⟩, rfl⟩ := hij
  exact hlt

theorem ballBallPhase_ke (l : List Ball) (hm : ∀ b ∈ l, b.mass = 1) :
    totalKE (ballBallPhase ⟨0, 0⟩ l) ≤ totalKE l ∧
      ∀ b ∈ ballBallPhase ⟨0, 0⟩ l, b.mass = 1 := by
  unfold ballBallPhase
  have := foldl_invariant
    (fun t => totalKE t ≤ totalKE l ∧ ∀ b ∈ t, b.mass = 1)
    (pairStep ⟨0, 0⟩) (pairIndices l.length) l ⟨le_refl _, hm⟩ ?_
  · exact this
  · intro t ij hij ⟨hke, hmt⟩
    refine ⟨le_trans (pairStep_ke t ij (Nat.ne_of_lt (pairIndices_lt _ _ hij)) hmt) hke, ?_⟩
    exact pairStep_mass _ t ij hmt

theorem mass_map_preserved (l : List Ball) (f : Ball → Ball)
    (hf : ∀ b, (f b).mass = b.mass) (hm : ∀ b ∈ l, b.mass = 1) :
    ∀ b ∈ l.map f, b.mass = 1 := by
  intro b hb
  obtain ⟨a, ha, rfl⟩ := List.mem_map.mp hb
  rw [hf a]
  exact hm a ha

theorem subStep_ke (table : TableConfig) (subDt : ℝ) (s : List Ball × List ℕ)
    (hm : ∀ b ∈ s.1, b.mass = 1) :
    totalKE (subStep table ⟨0, 0⟩ subDt s).1 ≤ totalKE s.1 ∧
      ∀ b ∈ (subStep table ⟨0, 0⟩ subDt s).1, b.mass = 1 := by
  unfold subStep
  simp only
  have hm1 : ∀ b ∈ s.1.map (integrateBall subDt), b.mass = 1 :=
    mass_map_preserved _ _ (integrateBall_mass subDt) hm
  have hke1 : totalKE (s.1.map (integrateBall subDt)) ≤ totalKE s.1 :=
    totalKE_map_le _ _ (fun b _ => le_of_eq (integrateBall_ke subDt b))
  have hpp : (pocketPhase table (s.1.map (integrateBall subDt))).1
      = (s.1.map (integrateBall subDt)).map (pocketBall table) := rfl
  have hm2 : ∀ b ∈ (pocketPhase table (s.1.map (integrateBall subDt))).1, b.mass = 1 := by
    rw [hpp]
    exact mass_map_preserved _ _ (pocketBall_mass table) hm1
  have hke2 : totalKE (pocketPhase table (s.1.map (integrateBall subDt))).1
      ≤ totalKE (s.1.map (integrateBall subDt)) := by
    rw [hpp]
    exact totalKE_map_le _ _ (fun b hb => pocketBall_ke table b (by rw [hm1 b hb]; norm_num))
  have hm3 : ∀ b ∈ (pocketPhase table (s.1.map (integrateBall subDt))).1.map
      (wallBall table ⟨0, 0⟩), b.mass = 1 :=
    mass_map_preserved _ _ (wallBall_mass table ⟨0, 0⟩) hm2
  have hke3 : totalKE ((pocketPhase table (s.1.map (integrateBall subDt))).1.map
      (wallBall table ⟨0, 0⟩)) ≤ totalKE (pocketPhase table (s.1.map (integrateBall subDt))).1 :=
    totalKE_map_le _ _ (fun b hb => wallBall_ke table b (by rw [hm2 b hb]; norm_num))
  have hbb := ballBallPhase_ke _ hm3
  exact ⟨le_trans hbb.1 (le_trans hke3 (le_trans hke2 hke1)), hbb.2⟩

/-- **C3**: a call to `updatePhysics` with zero applied spin never
increases the total kinetic energy `Σ ½·m·|vel|²` of the balls: the
integration, positional correction, wall restitution (0.80), ball-ball
restitution (0.92) with equal masses, and friction passes are all
energy-non-increasing (for nonnegative elapsed time `dt` and the
uniform unit masses the game creates every ball with). -/
theorem updatePhysics_energy_noninc (balls : List Ball) (table : TableConfig) (dt : ℝ)
    (hdt : 0 ≤ dt) (hm : ∀ b ∈ balls, b.mass = 1) :
    totalKE (updatePhysics balls table ⟨0, 0⟩ dt).1 ≤ totalKE balls := by
  unfold updatePhysics
  simp only
  have hfold := foldl_invariant
    (fun s : List Ball × List ℕ => totalKE s.1 ≤ totalKE balls ∧ ∀ b ∈ s.1, b.mass = 1)
    (fun s _ => subStep table ⟨0, 0⟩ (dt * 60 / (SUB_STEPS : ℝ)) s)
    (List.range SUB_STEPS) (balls, []) ⟨le_refl _, hm⟩ ?_
  · set s := (List.range SUB_STEPS).foldl
      (fun s _ => subStep table ⟨0, 0⟩ (dt * 60 / (SUB_STEPS : ℝ)) s) (balls, [])
    have hfr : totalKE (s.1.map (applyFriction ⟨0, 0⟩ (dt * 60))) ≤ totalKE s.1 :=
      totalKE_map_le _ _ (fun b hb =>
        applyFriction_ke (dt * 60) b (by linarith) (hfold.2 b hb))
    exact le_trans hfr hfold.1
  · intro t a _ ⟨hke, hmt⟩
    have := subStep_ke table (dt * 60 / (SUB_STEPS : ℝ)) t hmt
    exact ⟨le_trans this.1 hke, this.2⟩

/-- Witness for C3 at a concrete one-ball list with `dt = 1`. -/
theorem updatePhysics_energy_noninc_witness :
    totalKE (updatePhysics [frictionTestBall] TABLE_CONFIG ⟨0, 0⟩ 1).1 ≤
      totalKE [frictionTestBall] :=
  updatePhysics_energy_noninc [frictionTestBall] TABLE_CONFIG 1 (by norm_num)
    (by
      intro b hb
      rw [List.mem_singleton] at hb
      rw [hb]
      rfl)

/-! ## Pocket capture and exclusion of potted balls (claim C4) -/

theorem integrateBall_potted (subDt : ℝ) (b : Ball) (hp : b.potted = true) :
    integrateBall subDt b = b := by
  unfold integrateBall
  rw [if_pos hp]

theorem pocketBall_potted (table : TableConfig) (b : Ball) (hp : b.potted = true) :
    pocketBall table b = b := by
  unfold pocketBall
  rw [if_pos hp]

theorem pocketBall_capture (table : TableConfig) (b : Ball) (hc : capturesBall table b) :
    pocketBall table b = { b with potted := true, vel := vecZero } := by
  unfold pocketBall
  rw [if_neg (by rw [hc.1]; exact Bool.false_ne_true), if_pos hc.2]

theorem wallBall_potted (table : TableConfig) (spin : Spin) (b : Ball) (hp : b.potted = true) :
    wallBall table spin b = b := by
  unfold wallBall
  rw [if_pos hp]

theorem applyFriction_potted (spin : Spin) (ts : ℝ) (b : Ball) (hp : b.potted = true) :
    applyFriction spin ts b = b := by
  unfold applyFriction
  rw [if_pos hp]

theorem get?_map_fix (f : Ball → Ball) (l : List Ball) (i : ℕ) (b : Ball)
    (hb : l.get? i = some b) (hf : f b = b) : (l.map f).get? i = some b := by
  rw [List.get?_map, hb]
  simp [hf]

theorem pairStep_frozen (spin : Spin) (l : List Ball) (ij : ℕ × ℕ) (i : ℕ) (b : Ball)
    (hb : l.get? i = some b) (hp : b.potted = true) :
    (pairStep spin l ij).get? i = some b := by
  unfold pairStep
  rcases e1 : l.get? ij.1 with _ | b1 <;> rcases e2 : l.get? ij.2 with _ | b2 <;> simp only
  · exact hb
  · exact hb
  · exact hb
  · split_ifs with hpair
    · exact hb
    · have hne1 : ij.1 ≠ i := by
        rintro rfl
        rw [hb] at e1
        injection e1 with h
        subst h
        exact hpair (Or.inl hp)
      have hne2 : ij.2 ≠ i := by
        rintro rfl
        rw [hb] at e2
        injection e2 with h
        subst h
        exact hpair (Or.inr hp)
      rw [List.get?_set_ne _ _ hne2, List.get?_set_ne _ _ hne1]
      exact hb

theorem ballBallPhase_frozen (spin : Spin) (l : List Ball) (i : ℕ) (b : Ball)
    (hb : l.get? i = some b) (hp : b.potted = true) :
    (ballBallPhase spin l).get? i = some b := by
  unfold ballBallPhase
  exact foldl_invariant (fun t => t.get? i = some b) (pairStep spin) _ l hb
    (fun t ij _ ht => pairStep_frozen spin t ij i b ht hp)

theorem pairStep_length (spin : Spin) (l : List Ball) (ij : ℕ × ℕ) :
    (pairStep spin l ij).length = l.length := by
  unfold pairStep
  rcases l.get? ij.1 with _ | b1 <;> rcases l.get? ij.2 with _ | b2 <;> simp only
  split_ifs
  · rfl
  · rw [List.length_set, List.length_set]

theorem ballBallPhase_length (spin : Spin) (l : List Ball) :
    (ballBallPhase spin l).length = l.length := by
  unfold ballBallPhase
  exact foldl_invariant (fun t => t.length = l.length) (pairStep spin) _ l rfl
    (fun t ij _ ht => by
      show (pairStep spin t ij).length = l.length
      rw [pairStep_length]
      exact ht)

theorem subStep_length (table : TableConfig) (spin : Spin) (subDt : ℝ)
    (s : List Ball × List ℕ) : (subStep table spin subDt s).1.length = s.1.length := by
  unfold subStep
  simp only
  rw [ballBallPhase_length, List.length_map]
  show (pocketPhase table (s.1.map (integrateBall subDt))).1.length = _
  rw [show (pocketPhase table (s.1.map (integrateBall subDt))).1
      = (s.1.map (integrateBall subDt)).map (pocketBall table) from rfl]
  rw [List.length_map, List.length_map]

theorem subStep_frozen (table : TableConfig) (spin : Spin) (subDt : ℝ)
    (s : List Ball × List ℕ) (i : ℕ) (b : Ball)
    (hb : s.1.get? i = some b) (hp : b.potted = true) :
    (subStep table spin subDt s).1.get? i = some b := by
  unfold subStep
  simp only
  apply ballBallPhase_frozen _ _ _ _ _ hp
  apply get?_map_fix _ _ _ _ _ (wallBall_potted table spin b hp)
  show ((s.1.map (integrateBall subDt)).map (pocketBall table)).get? i = some b
  apply get?_map_fix _ _ _ _ _ (pocketBall_potted table b hp)
  exact get?_map_fix _ _ _ _ hb (integrateBall_potted subDt b hp)

theorem mem_pocketPhase_events (table : TableConfig) (l : List Ball) (i : ℕ) :
    i ∈ (pocketPhase table l).2 ↔
      i < l.length ∧ ∃ b, l.get? i = some b ∧ capturesBall table b := by
  unfold pocketPhase
  simp only [List.mem_filter, List.mem_range, decide_eq_true_eq]

theorem pocketPhase_events_nodup (table : TableConfig) (l : List Ball) :
    (pocketPhase table l).2.Nodup := by
  unfold pocketPhase
  exact (List.nodup_range _).filter _

/-- The physics invariant for claim C4, relative to the entry list. -/
def PhysInv (balls : List Ball) (s : List Ball × List ℕ) : Prop :=
  s.1.length = balls.length ∧
  (∀ i b, balls.get? i = some b → b.potted = true → s.1.get? i = some b) ∧
  (∀ i ∈ s.2, (∃ b0, balls.get? i = some b0 ∧ b0.potted = false) ∧
      (∃ b', s.1.get? i = some b' ∧ b'.potted = true ∧ b'.vel = vecZero)) ∧
  s.2.Nodup

theorem subStep_inv (table : TableConfig) (spin : Spin) (subDt : ℝ)
    (balls : List Ball) (s : List Ball × List ℕ) (h : PhysInv balls s) :
    PhysInv balls (subStep table spin subDt s) := by
  obtain ⟨hlen, hfroz, hev, hnd⟩ := h
  have hl1 : ∀ i b, s.1.get? i = some b → b.potted = true →
      (s.1.map (integrateBall subDt)).get? i = some b :=
    fun i b hb hp => get?_map_fix _ _ _ _ hb (integrateBall_potted subDt b hp)
  have hevents : (subStep table spin subDt s).2
      = s.2 ++ (pocketPhase table (s.1.map (integrateBall subDt))).2 := rfl
  refine ⟨by rw [subStep_length, hlen], ?_, ?_, ?_⟩
  · intro i b hb hp
    exact subStep_frozen table spin subDt s i b (hfroz i b hb hp) hp
  · intro i hi
    rw [hevents, List.mem_append] at hi
    rcases hi with hi | hi
    · obtain ⟨hb0, b', hb', hp', hv'⟩ := hev i hi
      exact ⟨hb0, b', subStep_frozen table spin subDt s i b' hb' hp', hp', hv'⟩
    · rw [mem_pocketPhase_events] at hi
      obtain ⟨hilen, c, hc, hcap⟩ := hi
      rw [List.length_map] at hilen
      constructor
      · -- the entry ball at index i exists and was not potted
        have hibs : i < balls.length := by rw [← hlen]; exact hilen
        obtain ⟨b0, hb0⟩ : ∃ b0, balls.get? i = some b0 :=
          ⟨balls.get ⟨i, hibs⟩, List.get?_eq_get hibs⟩
        refine ⟨b0, hb0, ?_⟩
        by_contra hpn
        have hp0 : b0.potted = true := by
          cases hq : b0.potted
          · exact absurd hq hpn
          · rfl
        have := hl1 i b0 (hfroz i b0 hb0 hp0) hp0
        rw [this] at hc
        injection hc with hc
        rw [← hc] at hcap
        rw [hcap.1] at hp0
        exact Bool.false_ne_true hp0
      · -- after this sub-step the captured ball is potted with zero velocity
        refine ⟨{ c with potted := true, vel := vecZero }, ?_, rfl, rfl⟩
        unfold subStep
        simp only
        apply ballBallPhase_frozen _ _ _ _ _ rfl
        apply get?_map_fix _ _ _ _ _ (wallBall_potted table spin _ rfl)
        show ((s.1.map (integrateBall subDt)).map (pocketBall table)).get? i = _
        rw [List.get?_map, hc]
        show some (pocketBall table c) = some { c with potted := true, vel := vecZero }
        rw [pocketBall_capture table c hcap]
  · rw [hevents]
    apply List.Nodup.append hnd (pocketPhase_events_nodup _ _)
    intro i hi hi2
    obtain ⟨-, b', hb', hp', -⟩ := hev i hi
    rw [mem_pocketPhase_events] at hi2
    obtain ⟨-, c, hc, hcap⟩ := hi2
    rw [hl1 i b' hb' hp'] at hc
    injection hc with hc
    rw [← hc] at hcap
    rw [hcap.1] at hp'
    exact Bool.false_ne_true hp'

/-- **C4**: in `updatePhysics`, (1) a ball already potted at entry is
untouched by the whole call and `onPot` never fires for it; (2) `onPot`
fires at most once per ball index — no double potting; (3) every `onPot`
firing is for a ball that entered the call un-potted and leaves the call
marked potted with zero velocity (its state is frozen for the rest of
the call); (4) a non-potted ball is captured by the pocket-detection
phase exactly when its center is within 0.95× pocket radius of some
pocket center, and capture marks it potted with zero velocity. -/
theorem updatePhysics_pot_once (balls : List Ball) (table : TableConfig) (spin : Spin)
    (dt : ℝ) :
    (∀ i b, balls.get? i = some b → b.potted = true →
        (updatePhysics balls table spin dt).1.get? i = some b ∧
          i ∉ (updatePhysics balls table spin dt).2) ∧
    (updatePhysics balls table spin dt).2.Nodup ∧
    (∀ i ∈ (updatePhysics balls table spin dt).2,
        (∃ b0, balls.get? i = some b0 ∧ b0.potted = false) ∧
        (∃ b', (updatePhysics balls table spin dt).1.get? i = some b' ∧
            b'.potted = true ∧ b'.vel = vecZero)) ∧
    (∀ b : Ball, b.potted = false →
        (((pocketBall table b).potted = true) ↔
          (∃ p ∈ pockets table, vecDist b.pos p < table.pocketRadius * 0.95)) ∧
        ((∃ p ∈ pockets table, vecDist b.pos p < table.pocketRadius * 0.95) →
          pocketBall table b = { b with potted := true, vel := vecZero })) := by
  have hinv : PhysInv balls ((List.range SUB_STEPS).foldl
      (fun s _ => subStep table spin (dt * 60 / (SUB_STEPS : ℝ)) s) (balls, [])) := by
    apply foldl_invariant (PhysInv balls) _ _ _ ?_ ?_
    · exact ⟨rfl, fun i b hb _ => hb, fun i hi => absurd hi (List.not_mem_nil i), List.nodup_nil⟩
    · intro t a _ ht
      exact subStep_inv table spin _ balls t ht
  have hsplit : updatePhysics balls table spin dt
      = (((List.range SUB_STEPS).foldl
            (fun s _ => subStep table spin (dt * 60 / (SUB_STEPS : ℝ)) s) (balls, [])).1.map
            (applyFriction spin (dt * 60)),
         ((List.range SUB_STEPS).foldl
            (fun s _ => subStep table spin (dt * 60 / (SUB_STEPS : ℝ)) s) (balls, [])).2) := rfl
  have hres1 : (updatePhysics balls table spin dt).1
      = ((List.range SUB_STEPS).foldl
          (fun s _ => subStep table spin (dt * 60 / (SUB_STEPS : ℝ)) s) (balls, [])).1.map
          (applyFriction spin (dt * 60)) := by rw [hsplit]
  have hres2 : (updatePhysics balls table spin dt).2
      = ((List.range SUB_STEPS).foldl
          (fun s _ => subStep table spin (dt * 60 / (SUB_STEPS : ℝ)) s) (balls, [])).2 := by
    rw [hsplit]
  rw [hres1, hres2]
  generalize hgen : (List.range SUB_STEPS).foldl
      (fun s _ => subStep table spin (dt * 60 / (SUB_STEPS : ℝ)) s)
      ((balls : List Ball), ([] : List ℕ)) = s
  rw [hgen] at hinv
  obtain ⟨hlen, hfroz, hev, hnd⟩ := hinv
  refine ⟨?_, ?_, ?_, ?_⟩
  · intro i b hb hp
    constructor
    · exact get?_map_fix _ _ _ _ (hfroz i b hb hp) (applyFriction_potted spin _ b hp)
    · intro hi
      obtain ⟨⟨b0, hb0, hp0⟩, -⟩ := hev i hi
      rw [hb] at hb0
      injection hb0 with hb0
      rw [← hb0] at hp0
      rw [hp0] at hp
      exact Bool.false_ne_true hp
  · exact hnd
  · intro i hi
    obtain ⟨hb0, b', hb', hp', hv'⟩ := hev i hi
    refine ⟨hb0, b', ?_, hp', hv'⟩
    exact get?_map_fix _ _ _ _ hb' (applyFriction_potted spin _ b' hp')
  · intro b hp
    constructor
    · constructor
      · intro hpot
        unfold pocketBall at hpot
        rw [if_neg (by rw [hp]; exact Bool.false_ne_true)] at hpot
        by_cases hc : ∃ p ∈ pockets table, vecDist b.pos p < table.pocketRadius * 0.95
        · exact hc
        · rw [if_neg hc] at hpot
          rw [hp] at hpot
          exact absurd hpot Bool.false_ne_true
      · intro hc
        rw [pocketBall_capture table b ⟨hp, hc⟩]
    · intro hc
      exact pocketBall_capture table b ⟨hp, hc⟩

/-- A ball already potted at entry, for the C4 witness. -/
def pottedTestBall : Ball :=
  { id := 1, type := BallType.RED, pos := ⟨100, 100⟩, vel := vecZero,
    radius := BALL_RADIUS, mass := 1, potted := true, value := 1 }

/-- Witness for C4: a ball potted at entry is untouched and produces no
pot event. -/
theorem updatePhysics_pot_once_witness :
    (updatePhysics [pottedTestBall] TABLE_CONFIG ⟨0, 0⟩ 1).1.get? 0 = some pottedTestBall ∧
      0 ∉ (updatePhysics [pottedTestBall] TABLE_CONFIG ⟨0, 0⟩ 1).2 :=
  (updatePhysics_pot_once [pottedTestBall] TABLE_CONFIG ⟨0, 0⟩ 1).1 0 pottedTestBall rfl rfl

/-! ## Trajectory predictor (`calculatePreciseTrajectory`, claim C7) -/

/-- `Trajectory` from `SnookerGame.tsx`. -/
structure Trajectory where
  points : List Vector2
  ghostBall : Option Vector2
  opacity : ℝ

/-- The per-axis wall distance of `calculatePreciseTrajectory`
(`distToWall`).  JavaScript's starting value `Infinity` is modelled by
`⊤ : WithTop ℝ`; `Math.min` is the lattice `min`. -/
def distToWall (startPos dir : Vector2) (table : TableConfig) : WithTop ℝ :=
  let minX := table.cushionWidth + BALL_RADIUS
  let maxX := table.width - table.cushionWidth - BALL_RADIUS
  let minY := table.cushionWidth + BALL_RADIUS
  let maxY := table.height - table.cushionWidth - BALL_RADIUS
  let d1 : WithTop ℝ :=
    if dir.x > 0 then min ⊤ (((maxX - startPos.x) / dir.x : ℝ) : WithTop ℝ)
    else if dir.x < 0 then min ⊤ (((minX - startPos.x) / dir.x : ℝ) : WithTop ℝ)
    else ⊤
  if dir.y > 0 then min d1 (((maxY - startPos.y) / dir.y : ℝ) : WithTop ℝ)
  else if dir.y < 0 then min d1 (((minY - startPos.y) / dir.y : ℝ) : WithTop ℝ)
  else d1

/-- The ray-circle candidate distance of the ball loop in
`calculatePreciseTrajectory`: `some t` exactly when the discriminant is
nonnegative and the near root `t = (-b - √Δ)/2` is positive. -/
def hitT (startPos dir : Vector2) (b : Ball) : Option ℝ :=
  let f := vecSub startPos b.pos
  let bCoeff := 2 * vecDot f dir
  let c := vecDot f f - 4 * BALL_RADIUS * BALL_RADIUS
  let delta := bCoeff * bCoeff - 4 * 1 * c
  if delta ≥ 0 then
    let t := (-bCoeff - Real.sqrt delta) / (2 * 1)
    if 0 < t then some t else none
  else none

/-- `closestHitDist`: the loop of `calculatePreciseTrajectory` keeping
the nearest positive ray-circle intersection over the non-cue,
non-potted balls (`⊤` = no hit = JavaScript `Infinity`). -/
def closestHitDist (startPos dir : Vector2) (balls : List Ball) : WithTop ℝ :=
  balls.foldl
    (fun acc b =>
      if b.type = BallType.CUE ∨ b.potted then acc
      else
        match hitT startPos dir b with
        | some t => if (t : WithTop ℝ) < acc then (t : WithTop ℝ) else acc
        | none => acc)
    ⊤

/-- `calculatePreciseTrajectory` from `SnookerGame.tsx`.  For a nonzero
direction the extended minimum is finite; `untop' 0` reads off that real
value (the `⊤` default is never reached then — see
`calculatePreciseTrajectory_spec`). -/
def calculatePreciseTrajectory (startPos direction : Vector2) (balls : List Ball)
    (table : TableConfig) : Trajectory :=
  let dir := vecNorm direction
  let dWall := distToWall startPos dir table
  let dHit := closestHitDist startPos dir balls
  let finalDist : ℝ := (min dWall dHit).untop' 0
  let endPos := vecAdd startPos (vecMult dir finalDist)
  { points := [startPos, endPos],
    ghostBall := if dHit < dWall then some endPos else none,
    opacity := 1 }

theorem vecNorm_component_ne_zero (v : Vector2) (h : v ≠ vecZero) :
    (vecNorm v).x ≠ 0 ∨ (vecNorm v).y ≠ 0 := by
  by_contra hc
  push_neg at hc
  have h1 : vecLen (vecNorm v) = 1 := vecLen_vecNorm v h
  have h0 : vecLen (vecNorm v) = 0 := by
    rw [(vecLen_eq_zero_iff _).mpr]
    cases hv : vecNorm v
    have hx := hc.1
    have hy := hc.2
    rw [hv] at hx hy
    simp only at hx hy
    unfold vecZero
    rw [hx] at hv ⊢
    rw [hy] at hv ⊢
  rw [h1] at h0
  norm_num at h0

theorem distToWall_ne_top (startPos dir : Vector2) (table : TableConfig)
    (h : dir.x ≠ 0 ∨ dir.y ≠ 0) : distToWall startPos dir table ≠ ⊤ := by
  unfold distToWall
  simp only
  have hd1 : dir.x ≠ 0 →
      (if dir.x > 0 then
        min ⊤ (((table.width - table.cushionWidth - BALL_RADIUS - startPos.x) / dir.x : ℝ) :
          WithTop ℝ)
      else if dir.x < 0 then
        min ⊤ (((table.cushionWidth + BALL_RADIUS - startPos.x) / dir.x : ℝ) : WithTop ℝ)
      else ⊤) ≠ ⊤ := by
    intro hx
    rcases lt_trichotomy dir.x 0 with h1 | h1 | h1
    · rw [if_neg (by linarith), if_pos h1]
      exact ne_top_of_lt (lt_of_le_of_lt (min_le_right _ _) (WithTop.coe_lt_top _))
    · exact absurd h1 hx
    · rw [if_pos h1]
      exact ne_top_of_lt (lt_of_le_of_lt (min_le_right _ _) (WithTop.coe_lt_top _))
  rcases lt_trichotomy dir.y 0 with h2 | h2 | h2
  · rw [if_neg (by linarith), if_pos h2]
    exact ne_top_of_lt (lt_of_le_of_lt (min_le_right _ _) (WithTop.coe_lt_top _))
  · rw [if_neg (by rw [h2]; exact lt_irrefl 0), if_neg (by rw [h2]; exact lt_irrefl 0)]
    rcases h with hx | hy
    · exact hd1 hx
    · exact absurd h2 hy
  · rw [if_pos h2]
    exact ne_top_of_lt (lt_of_le_of_lt (min_le_right _ _) (WithTop.coe_lt_top _))

/-- The fold of `closestHitDist` never exceeds its accumulator. -/
theorem closestHitDist_fold_le (startPos dir : Vector2) (balls : List Ball)
    (acc : WithTop ℝ) :
    balls.foldl
      (fun acc b =>
        if b.type = BallType.CUE ∨ b.potted then acc
        else
          match hitT startPos dir b with
          | some t => if (t : WithTop ℝ) < acc then (t : WithTop ℝ) else acc
          | none => acc)
      acc ≤ acc := by
  induction balls generalizing acc with
  | nil => exact le_refl _
  | cons b l ih =>
      simp only [List.foldl_cons]
      split_ifs with h1
      · exact ih acc
      · cases hc : hitT startPos dir b with
        | none => exact ih acc
        | some t =>
            simp only
            split_ifs with h2
            · exact le_trans (ih _) (le_of_lt h2)
            · exact ih acc

/-- `closestHitDist` is a lower bound of every candidate intersection
distance. -/
theorem closestHitDist_le_candidates (startPos dir : Vector2) (balls : List Ball) :
    ∀ b ∈ balls, ¬(b.type = BallType.CUE ∨ b.potted = true) →
      ∀ t : ℝ, hitT startPos dir b = some t →
        closestHitDist startPos dir balls ≤ (t : WithTop ℝ) := by
  unfold closestHitDist
  suffices h : ∀ (acc : WithTop ℝ), ∀ b ∈ balls, ¬(b.type = BallType.CUE ∨ b.potted = true) →
      ∀ t : ℝ, hitT startPos dir b = some t →
        balls.foldl
          (fun acc b =>
            if b.type = BallType.CUE ∨ b.potted then acc
            else
              match hitT startPos dir b with
              | some t => if (t : WithTop ℝ) < acc then (t : WithTop ℝ) else acc
              | none => acc)
          acc ≤ (t : WithTop ℝ) by
    exact h ⊤
  induction balls with
  | nil => intro acc b hb; exact absurd hb (List.not_mem_nil b)
  | cons a l ih =>
      intro acc b hb hskip t ht
      rcases List.mem_cons.mp hb with rfl | hbl
      · simp only [List.foldl_cons, if_neg hskip, ht]
        split_ifs with h2
        · exact closestHitDist_fold_le startPos dir l _
        · exact le_trans (closestHitDist_fold_le startPos dir l _) (not_lt.mp h2)
      · simp only [List.foldl_cons]
        split_ifs with h1
        · exact ih acc b hbl hskip t ht
        · cases hc : hitT startPos dir a with
          | none => exact ih acc b hbl hskip t ht
          | some u =>
              simp only
              split_ifs with h2
              · exact ih _ b hbl hskip t ht
              · exact ih acc b hbl hskip t ht

/-- **C7**: for every start point, nonzero direction, ball list and
table, `calculatePreciseTrajectory` returns exactly the path
`[start, end]` — so the path always contains the start and end points —
where the end point lies at distance `min(distToWall, closestHitDist)`
along the normalized direction; the ghost-ball point is non-null exactly
when the nearest ball intersection is strictly closer than the wall (and
then it equals the end point), and it is null when the ray terminates at
the wall; `closestHitDist` is a lower bound of every candidate ray-circle
intersection distance over the non-cue, non-potted balls. -/
theorem calculatePreciseTrajectory_spec (startPos direction : Vector2) (balls : List Ball)
    (table : TableConfig) (hdir : direction ≠ vecZero) :
    ∃ d : ℝ,
      (d : WithTop ℝ) = min (distToWall startPos (vecNorm direction) table)
          (closestHitDist startPos (vecNorm direction) balls) ∧
      (calculatePreciseTrajectory startPos direction balls table).points
        = [startPos, vecAdd startPos (vecMult (vecNorm direction) d)] ∧
      ((calculatePreciseTrajectory startPos direction balls table).ghostBall ≠ none ↔
        closestHitDist startPos (vecNorm direction) balls
          < distToWall startPos (vecNorm direction) table) ∧
      ((calculatePreciseTrajectory startPos direction balls table).ghostBall = none ∨
        (calculatePreciseTrajectory startPos direction balls table).ghostBall
          = some (vecAdd startPos (vecMult (vecNorm direction) d))) ∧
      (distToWall startPos (vecNorm direction) table
          ≤ closestHitDist startPos (vecNorm direction) balls →
        (calculatePreciseTrajectory startPos direction balls table).ghostBall = none) ∧
      (∀ b ∈ balls, ¬(b.type = BallType.CUE ∨ b.potted = true) →
        ∀ t : ℝ, hitT startPos (vecNorm direction) b = some t →
          closestHitDist startPos (vecNorm direction) balls ≤ (t : WithTop ℝ)) := by
  have hne : min (distToWall startPos (vecNorm direction) table)
      (closestHitDist startPos (vecNorm direction) balls) ≠ ⊤ := by
    intro hc
    have h1 : distToWall startPos (vecNorm direction) table = ⊤ := by
      by_contra hw
      have := min_le_left (distToWall startPos (vecNorm direction) table)
        (closestHitDist startPos (vecNorm direction) balls)
      rw [hc] at this
      exact hw (top_le_iff.mp this)
    exact distToWall_ne_top startPos (vecNorm direction) table
      (vecNorm_component_ne_zero direction hdir) h1
  obtain ⟨d, hd⟩ := Option.ne_none_iff_exists.mp hne
  refine ⟨d, hd, ?_, ?_, ?_, ?_, closestHitDist_le_candidates startPos (vecNorm direction) balls⟩
  · show [startPos, vecAdd startPos (vecMult (vecNorm direction)
        ((min (distToWall startPos (vecNorm direction) table)
          (closestHitDist startPos (vecNorm direction) balls)).untop' 0))]
      = [startPos, vecAdd startPos (vecMult (vecNorm direction) d)]
    rw [← hd]
    rfl
  · show (if closestHitDist startPos (vecNorm direction) balls
        < distToWall startPos (vecNorm direction) table
      then some (vecAdd startPos (vecMult (vecNorm direction)
        ((min (distToWall startPos (vecNorm direction) table)
          (closestHitDist startPos (vecNorm direction) balls)).untop' 0)))
      else none) ≠ none ↔ _
    split_ifs with h
    · simp only [ne_eq, Option.some_ne_none, not_false_eq_true, true_iff]
      exact h
    · simp only [ne_eq, not_true, false_iff]
      exact h
  · show (if closestHitDist startPos (vecNorm direction) balls
        < distToWall startPos (vecNorm direction) table
      then some (vecAdd startPos (vecMult (vecNorm direction)
        ((min (distToWall startPos (vecNorm direction) table)
          (closestHitDist startPos (vecNorm direction) balls)).untop' 0)))
      else none) = none ∨
      (if closestHitDist startPos (vecNorm direction) balls
        < distToWall startPos (vecNorm direction) table
      then some (vecAdd startPos (vecMult (vecNorm direction)
        ((min (distToWall startPos (vecNorm direction) table)
          (closestHitDist startPos (vecNorm direction) balls)).untop' 0)))
      else none) = some (vecAdd startPos (vecMult (vecNorm direction) d))
    split_ifs with h
    · right
      rw [← hd]
      rfl
    · left
      rfl
  · intro hle
    show (if closestHitDist startPos (vecNorm direction) balls
        < distToWall startPos (vecNorm direction) table
      then some (vecAdd startPos (vecMult (vecNorm direction)
        ((min (distToWall startPos (vecNorm direction) table)
          (closestHitDist startPos (vecNorm direction) balls)).untop' 0)))
      else none) = none
    rw [if_neg (not_lt.mpr hle)]

/-- Witness for C7: a ray from the table center along `(1,0)` with no
object balls terminates at the right cushion with no ghost point. -/
theorem calculatePreciseTrajectory_spec_witness :
    ∃ d : ℝ,
      (d : WithTop ℝ) = min (distToWall ⟨400, 200⟩ (vecNorm ⟨1, 0⟩) TABLE_CONFIG)
          (closestHitDist ⟨400, 200⟩ (vecNorm ⟨1, 0⟩) []) ∧
      (calculatePreciseTrajectory ⟨400, 200⟩ ⟨1, 0⟩ [] TABLE_CONFIG).points
        = [⟨400, 200⟩, vecAdd ⟨400, 200⟩ (vecMult (vecNorm ⟨1, 0⟩) d)] ∧
      ((calculatePreciseTrajectory ⟨400, 200⟩ ⟨1, 0⟩ [] TABLE_CONFIG).ghostBall ≠ none ↔
        closestHitDist ⟨400, 200⟩ (vecNorm ⟨1, 0⟩) []
          < distToWall ⟨400, 200⟩ (vecNorm ⟨1, 0⟩) TABLE_CONFIG) ∧
      ((calculatePreciseTrajectory ⟨400, 200⟩ ⟨1, 0⟩ [] TABLE_CONFIG).ghostBall = none ∨
        (calculatePreciseTrajectory ⟨400, 200⟩ ⟨1, 0⟩ [] TABLE_CONFIG).ghostBall
          = some (vecAdd ⟨400, 200⟩ (vecMult (vecNorm ⟨1, 0⟩) d))) ∧
      (distToWall ⟨400, 200⟩ (vecNorm ⟨1, 0⟩) TABLE_CONFIG
          ≤ closestHitDist ⟨400, 200⟩ (vecNorm ⟨1, 0⟩) [] →
        (calculatePreciseTrajectory ⟨400, 200⟩ ⟨1, 0⟩ [] TABLE_CONFIG).ghostBall = none) ∧
      (∀ b ∈ ([] : List Ball), ¬(b.type = BallType.CUE ∨ b.potted = true) →
        ∀ t : ℝ, hitT ⟨400, 200⟩ (vecNorm ⟨1, 0⟩) b = some t →
          closestHitDist ⟨400, 200⟩ (vecNorm ⟨1, 0⟩) [] ≤ (t : WithTop ℝ)) :=
  calculatePreciseTrajectory_spec ⟨400, 200⟩ ⟨1, 0⟩ [] TABLE_CONFIG
    (by
      intro h
      have hx : (1 : ℝ) = 0 := congrArg Vector2.x h
      norm_num at hx)

/-! ## Visibility / snooker checker (claim C6) -/

/-- `canSeeBall` from `SnookerGame.tsx`: the cue-to-target line of sight
is clear when every other ball is skipped (the target itself, the cue
ball, potted balls), projects outside the segment, or keeps its distance
from the ray. -/
def canSeeBall (start : Vector2) (target : Ball) (allBalls : List Ball) : Prop :=
  ∀ b ∈ allBalls,
    b.id = target.id ∨ b.type = BallType.CUE ∨ b.potted = true ∨
      (vecDot (vecSub b.pos start) (vecNorm (vecSub target.pos start)) < 0 ∨
       vecDot (vecSub b.pos start) (vecNorm (vecSub target.pos start))
         > vecDist target.pos start ∨
       ¬ vecDist
           (vecAdd start (vecMult (vecNorm (vecSub target.pos start))
             (vecDot (vecSub b.pos start) (vecNorm (vecSub target.pos start)))))
           b.pos < b.radius * 1.95)

/-- The legal-target filter of `checkIsSnookered` (`'RED'` and
`BallType.RED` are the same string value in the source, hence the single
`ball` case). -/
def legalTargetsOf (balls : List Ball) : TargetState → List Ball
  | TargetState.COLOR =>
      balls.filter (fun b =>
        decide (b.type ≠ BallType.RED ∧ b.type ≠ BallType.CUE ∧ b.potted = false))
  | TargetState.ball c =>
      balls.filter (fun b => decide (b.type = c ∧ b.potted = false))

/-- `checkIsSnookered` from `SnookerGame.tsx`: false when the cue ball
is missing, false when no legal target exists, false when some legal
target is visible, true otherwise. -/
def checkIsSnookered (balls : List Ball) (targetState : TargetState) : Prop :=
  match balls.find? (fun b => decide (b.type = BallType.CUE ∧ b.potted = false)) with
  | none => False
  | some cueBall =>
      legalTargetsOf balls targetState ≠ [] ∧
        ∀ t ∈ legalTargetsOf balls targetState, ¬ canSeeBall cueBall.pos t balls

/-- The claim's obstruction notion for one blocker `b` on the
cue-to-target segment, spelled from the spec's words: a non-potted,
non-cue ball other than the target whose projection lies inside the
segment and whose distance to the ray is below `1.95×` its radius. -/
def obstructsSpec (start : Vector2) (target b : Ball) : Prop :=
  b.id ≠ target.id ∧ b.type ≠ BallType.CUE ∧ b.potted = false ∧
    0 ≤ vecDot (vecSub b.pos start) (vecNorm (vecSub target.pos start)) ∧
    vecDot (vecSub b.pos start) (vecNorm (vecSub target.pos start))
      ≤ vecDist target.pos start ∧
    vecDist
        (vecAdd start (vecMult (vecNorm (vecSub target.pos start))
          (vecDot (vecSub b.pos start) (vecNorm (vecSub target.pos start)))))
        b.pos < b.radius * 1.95

theorem not_canSeeBall_iff (start : Vector2) (target : Ball) (allBalls : List Ball) :
    ¬ canSeeBall start target allBalls ↔ ∃ b ∈ allBalls, obstructsSpec start target b := by
  unfold canSeeBall obstructsSpec
  push_neg
  simp only [Bool.not_eq_true, not_lt]

/-- **C6**: `checkIsSnookered` returns true exactly when a live cue ball
exists, the legal target set (all reds for a red target, all non-red
non-cue balls for `'COLOR'`, the one specific colour otherwise) is
non-empty, and *every* legal target is obstructed by some other
non-potted non-cue ball lying within `1.95×` its radius of the
cue-to-target segment with its projection inside the segment;
consequently, if even one legal target has a clear line of sight, the
striker is not snookered. -/
theorem checkIsSnookered_spec (balls : List Ball) (ts : TargetState) :
    (checkIsSnookered balls ts ↔
      ∃ cue, balls.find? (fun b => decide (b.type = BallType.CUE ∧ b.potted = false))
          = some cue ∧
        legalTargetsOf balls ts ≠ [] ∧
        ∀ t ∈ legalTargetsOf balls ts, ∃ b ∈ balls, obstructsSpec cue.pos t b) ∧
    (∀ cue, balls.find? (fun b => decide (b.type = BallType.CUE ∧ b.potted = false))
        = some cue →
      ∀ t ∈ legalTargetsOf balls ts, (∀ b ∈ balls, ¬ obstructsSpec cue.pos t b) →
        ¬ checkIsSnookered balls ts) := by
  have hmain : checkIsSnookered balls ts ↔
      ∃ cue, balls.find? (fun b => decide (b.type = BallType.CUE ∧ b.potted = false))
          = some cue ∧
        legalTargetsOf balls ts ≠ [] ∧
        ∀ t ∈ legalTargetsOf balls ts, ∃ b ∈ balls, obstructsSpec cue.pos t b := by
    unfold checkIsSnookered
    cases hfind : balls.find? (fun b => decide (b.type = BallType.CUE ∧ b.potted = false)) with
    | none =>
        simp only
        constructor
        · exact fun h => h.elim
        · rintro ⟨cue, hcue, -⟩
          exact Option.noConfusion hcue
    | some cueBall =>
        simp only
        constructor
        · rintro ⟨hne, hobs⟩
          exact ⟨cueBall, rfl, hne, fun t ht => (not_canSeeBall_iff _ _ _).mp (hobs t ht)⟩
        · rintro ⟨cue, hcue, hne, hobs⟩
          injection hcue with hcue
          subst hcue
          exact ⟨hne, fun t ht => (not_canSeeBall_iff _ _ _).mpr (hobs t ht)⟩
  refine ⟨hmain, ?_⟩
  intro cue hcue t ht hclear hsnook
  obtain ⟨cue', hcue', -, hobs⟩ := hmain.mp hsnook
  rw [hcue] at hcue'
  injection hcue' with hcue'
  subst hcue'
  obtain ⟨b, hb, hob⟩ := hobs t ht
  exact hclear b hb hob

/-- A live cue ball for the C6 witness. -/
def cueTestBall : Ball :=
  { id := 0, type := BallType.CUE, pos := ⟨150, 230⟩, vel := vecZero,
    radius := BALL_RADIUS, mass := 1, potted := false, value := 0 }

/-- A live red ball for the C6 witness. -/
def redTestBall : Ball :=
  { id := 1, type := BallType.RED, pos := ⟨620, 200⟩, vel := vecZero,
    radius := BALL_RADIUS, mass := 1, potted := false, value := 1 }

/-- Witness for C6: with only a cue ball and one red on the table, the
red has a clear line of sight, so the striker is not snookered. -/
theorem checkIsSnookered_spec_witness :
    ¬ checkIsSnookered [cueTestBall, redTestBall] (TargetState.ball BallType.RED) := by
  have hfind : [cueTestBall, redTestBall].find?
      (fun b => decide (b.type = BallType.CUE ∧ b.potted = false)) = some cueTestBall := by
    rfl
  have hmem : redTestBall ∈ legalTargetsOf [cueTestBall, redTestBall]
      (TargetState.ball BallType.RED) := by
    show redTestBall ∈ List.filter
      (fun b => decide (b.type = BallType.RED ∧ b.potted = false)) [cueTestBall, redTestBall]
    rw [List.mem_filter]
    exact ⟨List.mem_cons_of_mem _ (List.mem_cons_self _ _), by rfl⟩
  apply (checkIsSnookered_spec [cueTestBall, redTestBall] (TargetState.ball BallType.RED)).2
    cueTestBall hfind redTestBall hmem
  intro b hb hob
  rcases List.mem_cons.mp hb with rfl | hb
  · exact hob.2.1 rfl
  · rcases List.mem_cons.mp hb with rfl | hb
    · exact hob.1 rfl
    · exact absurd hb (List.not_mem_nil b)

/-! ## Rule engine (`handleTurnEnd`, `respawnBall`, `switchTurn`;
claims C1, C5, C8) -/

/-- `BAULK_X` from `SnookerGame.tsx`. -/
def BAULK_X : ℝ := 170

/-- `CENTER_Y` from `SnookerGame.tsx`. -/
def CENTER_Y : ℝ := 200

/-- `D_RADIUS` from `SnookerGame.tsx`. -/
def D_RADIUS : ℝ := 60

/-- The string value of a `BallType` enum member (the TypeScript enum
members are string-valued). -/
def ballTypeName : BallType → String
  | BallType.CUE => "CUE"
  | BallType.RED => "RED"
  | BallType.YELLOW => "YELLOW"
  | BallType.GREEN => "GREEN"
  | BallType.BROWN => "BROWN"
  | BallType.BLUE => "BLUE"
  | BallType.PINK => "PINK"
  | BallType.BLACK => "BLACK"

/-- The per-shot scratch record `turnStatusRef.current`.  The `foul`
flag is set in exactly two places: by `handlePot` when the cue ball is
potted, and by the push-shot check in `takeShot` (which also sets
`pushShot`), so in `handleTurnEnd` the branch `foul && !pushShot` means
"cue ball potted". -/
structure TurnStatus where
  potted : Bool
  foul : Bool
  firstHitType : Option BallType
  pottedBall : Option Ball
  pushShot : Bool

/-- The foul verdict computed by `handleTurnEnd` (its `isFoul`,
`foulMsg` and `penalty` locals at the end of the foul analysis). -/
structure FoulResult where
  isFoul : Bool
  foulMsg : String
  penalty : ℤ
deriving DecidableEq

/-- `targetVal` of `handleTurnEnd`: 4 for `'RED'`/`'COLOR'` targets,
the ball value for a specific colour target. -/
def targetValOf : TargetState → ℤ
  | TargetState.COLOR => 4
  | TargetState.ball c => if c = BallType.RED then 4 else getBallValue c

/-- The `validHit` analysis of `handleTurnEnd` (lines 1141–1153). -/
def isValidHit (targetState : TargetState) (isFreeBall : Bool) (t : BallType) : Bool :=
  if isFreeBall then
    if t = BallType.RED then true else decide (t ≠ BallType.CUE)
  else
    match targetState with
    | TargetState.COLOR => decide (t ≠ BallType.RED ∧ t ≠ BallType.CUE)
    | TargetState.ball c => decide (t = c)

/-- The `validPot` analysis of `handleTurnEnd` (lines 1166–1177). -/
def isValidPot (targetState : TargetState) (isFreeBall : Bool) (t : BallType) : Bool :=
  if isFreeBall then decide (t ≠ BallType.CUE)
  else
    match targetState with
    | TargetState.COLOR => decide (t ≠ BallType.RED ∧ t ≠ BallType.CUE)
    | TargetState.ball c => decide (t = c)

/-- The first stage of the foul analysis of `handleTurnEnd`
(lines 1119–1163): the push-shot / cue-potted / missed-all /
wrong-first-contact `if`/`else if` chain. -/
def resolveFoulStage1 (ts : TurnStatus) (targetState : TargetState) (isFreeBall : Bool)
    (touchingBall : Option Ball) : FoulResult :=
  if ts.pushShot then
    { isFoul := true, foulMsg := "Push Shot (Hit into touching ball)",
      penalty := max 4 (max (targetValOf targetState) (match touchingBall with
        | some tb => getBallValue tb.type
        | none => 4)) }
  else if ts.foul then
    { isFoul := true, foulMsg := "Cue ball potted",
      penalty := max 4 (max (targetValOf targetState) (match ts.firstHitType with
        | some h => getBallValue h
        | none => 4)) }
  else
    match ts.firstHitType with
    | none =>
        { isFoul := true, foulMsg := "Missed all balls",
          penalty := max 4 (targetValOf targetState) }
    | some h =>
        if isValidHit targetState isFreeBall h then
          { isFoul := false, foulMsg := "FOUL", penalty := 4 }
        else
          { isFoul := true,
            foulMsg :=
              if targetState = TargetState.ball BallType.RED then "Hit Color first"
              else if targetState = TargetState.COLOR then "Hit Red first"
              else "Hit wrong ball (Hit " ++ ballTypeName h ++ ")",
            penalty := max 4 (max (getBallValue h) (targetValOf targetState)) }

/-- The foul analysis of `handleTurnEnd` (lines 1109–1187): the chain
above, followed by the illegal-pot check that only runs when no earlier
foul matched (`if (!isFoul && potted && pottedBall)`). -/
def resolveFoul (ts : TurnStatus) (targetState : TargetState) (isFreeBall : Bool)
    (touchingBall : Option Ball) : FoulResult :=
  if (resolveFoulStage1 ts targetState isFreeBall touchingBall).isFoul = false ∧
      ts.potted = true then
    match ts.pottedBall with
    | some pb =>
        if isValidPot targetState isFreeBall pb.type then
          resolveFoulStage1 ts targetState isFreeBall touchingBall
        else
          { isFoul := true,
            foulMsg :=
              if targetState = TargetState.ball BallType.RED then
                "Potted " ++ ballTypeName pb.type
              else if targetState = TargetState.COLOR then "Potted RED"
              else "Potted wrong color",
            penalty := max 4 (max (getBallValue pb.type) (targetValOf targetState)) }
    | none => resolveFoulStage1 ts targetState isFreeBall touchingBall
  else resolveFoulStage1 ts targetState isFreeBall touchingBall

/-- The six designated spots of `respawnBall`, in its fixed priority
order black, pink, blue, brown, green, yellow. -/
def spots : List (BallType × Vector2) :=
  [ (BallType.BLACK, ⟨720, CENTER_Y⟩),
    (BallType.PINK, ⟨600, CENTER_Y⟩),
    (BallType.BLUE, ⟨400, CENTER_Y⟩),
    (BallType.BROWN, ⟨BAULK_X, CENTER_Y⟩),
    (BallType.GREEN, ⟨BAULK_X, CENTER_Y - D_RADIUS⟩),
    (BallType.YELLOW, ⟨BAULK_X, CENTER_Y + D_RADIUS⟩) ]

/-- `isOccupied` of `respawnBall`: some other non-potted ball lies
within two radii of the spot. -/
def isOccupied (balls : List Ball) (selfId : ℕ) (pos : Vector2) : Prop :=
  ∃ b ∈ balls, b.potted = false ∧ b.id ≠ selfId ∧ vecDist b.pos pos < BALL_RADIUS * 2

/-- The overflow location used when all six spots are occupied. -/
def overflowPos : Vector2 := ⟨730 + BALL_RADIUS * 2.1, CENTER_Y⟩

/-- `respawnBall` from `SnookerGame.tsx`, acting on the ball with the
given id (in-place mutation of the found ball object is modelled by
mapping over the list; ids are unique in the game). -/
def respawnBall (balls : List Ball) (id : ℕ) : List Ball :=
  match balls.find? (fun b => decide (b.id = id)) with
  | none => balls
  | some cb =>
      let cb1 := { cb with potted := false, vel := vecZero }
      match spots.find? (fun s => decide (s.1 = cb.type)) with
      | none => balls.map (fun b => if b.id = id then cb1 else b)
      | some targetSpot =>
          let newPos :=
            if ¬ isOccupied balls id targetSpot.2 then targetSpot.2
            else
              match spots.find? (fun s => decide (¬ isOccupied balls id s.2)) with
              | some s => s.2
              | none => overflowPos
          balls.map (fun b => if b.id = id then { cb1 with pos := newPos } else b)

/-- The count of reds still on the table (`remainingReds`). -/
def redCount (balls : List Ball) : ℕ :=
  (balls.filter (fun b => decide (b.type = BallType.RED ∧ b.potted = false))).length

/-- `.sort((a,b) => a.value - b.value)`: ascending sort by point
value. -/
def sortByValue (l : List Ball) : List Ball :=
  l.mergeSort (fun a b => decide (a.value ≤ b.value))

/-- The non-potted, non-cue balls, sorted ascending by value (the
`sorted`/`next` lists of `switchTurn` and `handleTurnEnd`). -/
def remainingSorted (balls : List Ball) : List Ball :=
  sortByValue (balls.filter (fun b => decide (b.potted = false ∧ b.type ≠ BallType.CUE)))

/-- The outcome of the legitimate-pot resolution of `handleTurnEnd`
(lines 1228–1295): the updated ball list and the pieces of game state
the branch mutates. -/
structure PotResolution where
  balls : List Ball
  target : TargetState
  showColorSelection : Bool
  turnContinues : Bool
  gameOver : Bool
  points : ℤ
  isFreeBall : Bool
  isClearance : Bool

/-- The legitimate (non-foul) pot resolution of `handleTurnEnd`
(lines 1228–1295), as a pure function of the pre-resolution state:
`balls` is the post-shot list (the potted ball is already marked
potted in it). -/
def resolvePot (targetState : TargetState) (isFreeBall : Bool) (isClearance : Bool)
    (balls : List Ball) (pottedBall : Ball) : PotResolution :=
  let points : ℤ :=
    if isFreeBall ∧ pottedBall.type ≠ BallType.RED then 1 else pottedBall.value
  let remainingReds := redCount balls
  if isFreeBall then
    { balls := respawnBall balls pottedBall.id, target := TargetState.COLOR,
      showColorSelection := true, turnContinues := true, gameOver := false,
      points := points, isFreeBall := false, isClearance := false }
  else if pottedBall.type = BallType.RED then
    { balls := balls, target := TargetState.COLOR, showColorSelection := true,
      turnContinues := true, gameOver := false, points := points,
      isFreeBall := isFreeBall, isClearance := false }
  else if targetState = TargetState.COLOR then
    if remainingReds > 0 then
      { balls := respawnBall balls pottedBall.id, target := TargetState.ball BallType.RED,
        showColorSelection := false, turnContinues := true, gameOver := false,
        points := points, isFreeBall := isFreeBall, isClearance := false }
    else
      { balls := respawnBall balls pottedBall.id, target := TargetState.ball BallType.YELLOW,
        showColorSelection := false, turnContinues := true, gameOver := false,
        points := points, isFreeBall := isFreeBall, isClearance := true }
  else
    if remainingReds > 0 then
      { balls := respawnBall balls pottedBall.id, target := TargetState.ball BallType.RED,
        showColorSelection := false, turnContinues := true, gameOver := false,
        points := points, isFreeBall := isFreeBall, isClearance := isClearance }
    else if targetState = TargetState.ball pottedBall.type then
      match remainingSorted balls with
      | [] =>
          { balls := balls, target := targetState, showColorSelection := false,
            turnContinues := true, gameOver := true, points := points,
            isFreeBall := isFreeBall, isClearance := isClearance }
      | n :: _ =>
          { balls := balls, target := TargetState.ball n.type, showColorSelection := false,
            turnContinues := true, gameOver := false, points := points,
            isFreeBall := isFreeBall, isClearance := isClearance }
    else
      { balls := balls, target := targetState, showColorSelection := false,
        turnContinues := false, gameOver := false, points := points,
        isFreeBall := isFreeBall, isClearance := isClearance }

theorem resolveFoulStage1_penalty (ts : TurnStatus) (targetState : TargetState)
    (isFreeBall : Bool) (touchingBall : Option Ball) :
    4 ≤ (resolveFoulStage1 ts targetState isFreeBall touchingBall).penalty := by
  unfold resolveFoulStage1
  by_cases h1 : ts.pushShot = true
  · rw [if_pos h1]
    exact le_max_left _ _
  · rw [if_neg h1]
    by_cases h2 : ts.foul = true
    · rw [if_pos h2]
      exact le_max_left _ _
    · rw [if_neg h2]
      cases hfh : ts.firstHitType with
      | none => simp only [hfh]; exact le_max_left _ _
      | some h =>
          simp only [hfh]
          by_cases h3 : isValidHit targetState isFreeBall h = true
          · rw [if_pos h3]
          · rw [if_neg h3]
            exact le_max_left _ _

theorem resolveFoulStage1_push (ts : TurnStatus) (targetState : TargetState)
    (isFreeBall : Bool) (touchingBall : Option Ball) (hpush : ts.pushShot = true) :
    resolveFoulStage1 ts targetState isFreeBall touchingBall =
      { isFoul := true, foulMsg := "Push Shot (Hit into touching ball)",
        penalty := max 4 (max (targetValOf targetState) (match touchingBall with
          | some tb => getBallValue tb.type
          | none => 4)) } := by
  unfold resolveFoulStage1
  rw [if_pos hpush]

theorem resolveFoulStage1_cue (ts : TurnStatus) (targetState : TargetState)
    (isFreeBall : Bool) (touchingBall : Option Ball)
    (hpush : ts.pushShot = false) (hfoul : ts.foul = true) :
    resolveFoulStage1 ts targetState isFreeBall touchingBall =
      { isFoul := true, foulMsg := "Cue ball potted",
        penalty := max 4 (max (targetValOf targetState) (match ts.firstHitType with
          | some h => getBallValue h
          | none => 4)) } := by
  unfold resolveFoulStage1
  rw [if_neg (by simp [hpush]), if_pos hfoul]

theorem resolveFoulStage1_miss (ts : TurnStatus) (targetState : TargetState)
    (isFreeBall : Bool) (touchingBall : Option Ball)
    (hpush : ts.pushShot = false) (hfoul : ts.foul = false)
    (hfh : ts.firstHitType = none) :
    resolveFoulStage1 ts targetState isFreeBall touchingBall =
      { isFoul := true, foulMsg := "Missed all balls",
        penalty := max 4 (targetValOf targetState) } := by
  unfold resolveFoulStage1
  rw [if_neg (by simp [hpush]), if_neg (by simp [hfoul])]
  simp only [hfh]

theorem resolveFoulStage1_wrongHit (ts : TurnStatus) (targetState : TargetState)
    (isFreeBall : Bool) (touchingBall : Option Ball) (h : BallType)
    (hpush : ts.pushShot = false) (hfoul : ts.foul = false)
    (hfh : ts.firstHitType = some h) (hvh : isValidHit targetState isFreeBall h = false) :
    resolveFoulStage1 ts targetState isFreeBall touchingBall =
      { isFoul := true,
        foulMsg :=
          if targetState = TargetState.ball BallType.RED then "Hit Color first"
          else if targetState = TargetState.COLOR then "Hit Red first"
          else "Hit wrong ball (Hit " ++ ballTypeName h ++ ")",
        penalty := max 4 (max (getBallValue h) (targetValOf targetState)) } := by
  unfold resolveFoulStage1
  rw [if_neg (by simp [hpush]), if_neg (by simp [hfoul])]
  simp only [hfh]
  rw [if_neg (by simp [hvh])]

theorem resolveFoulStage1_validHit (ts : TurnStatus) (targetState : TargetState)
    (isFreeBall : Bool) (touchingBall : Option Ball) (h : BallType)
    (hpush : ts.pushShot = false) (hfoul : ts.foul = false)
    (hfh : ts.firstHitType = some h) (hvh : isValidHit targetState isFreeBall h = true) :
    resolveFoulStage1 ts targetState isFreeBall touchingBall =
      { isFoul := false, foulMsg := "FOUL", penalty := 4 } := by
  unfold resolveFoulStage1
  rw [if_neg (by simp [hpush]), if_neg (by simp [hfoul])]
  simp only [hfh]
  rw [if_pos hvh]

theorem resolveFoul_of_stage1_foul (ts : TurnStatus) (targetState : TargetState)
    (isFreeBall : Bool) (touchingBall : Option Ball)
    (hf : (resolveFoulStage1 ts targetState isFreeBall touchingBall).isFoul = true) :
    resolveFoul ts targetState isFreeBall touchingBall
      = resolveFoulStage1 ts targetState isFreeBall touchingBall := by
  unfold resolveFoul
  rw [if_neg]
  rintro ⟨h1, -⟩
  rw [hf] at h1
  exact Bool.noConfusion h1

/-- **C1**: in `handleTurnEnd` the foul conditions are evaluated in the
fixed precedence order push shot > cue ball potted (the `foul` flag,
set exactly by cue-ball pots outside push shots) > no ball contacted >
first contact not a legal target > potted ball not legal; the first
matching condition alone determines the shot's single foul verdict and
message, and the penalty is always at least 4 points (each foul's
penalty is a `max` with 4). -/
theorem resolveFoul_spec (ts : TurnStatus) (targetState : TargetState) (isFreeBall : Bool)
    (touchingBall : Option Ball) :
    4 ≤ (resolveFoul ts targetState isFreeBall touchingBall).penalty ∧
    (ts.pushShot = true →
      resolveFoul ts targetState isFreeBall touchingBall =
        { isFoul := true, foulMsg := "Push Shot (Hit into touching ball)",
          penalty := max 4 (max (targetValOf targetState) (match touchingBall with
            | some tb => getBallValue tb.type
            | none => 4)) }) ∧
    (ts.pushShot = false → ts.foul = true →
      resolveFoul ts targetState isFreeBall touchingBall =
        { isFoul := true, foulMsg := "Cue ball potted",
          penalty := max 4 (max (targetValOf targetState) (match ts.firstHitType with
            | some h => getBallValue h
            | none => 4)) }) ∧
    (ts.pushShot = false → ts.foul = false → ts.firstHitType = none →
      resolveFoul ts targetState isFreeBall touchingBall =
        { isFoul := true, foulMsg := "Missed all balls",
          penalty := max 4 (targetValOf targetState) }) ∧
    (∀ h, ts.pushShot = false → ts.foul = false → ts.firstHitType = some h →
      isValidHit targetState isFreeBall h = false →
      resolveFoul ts targetState isFreeBall touchingBall =
        { isFoul := true,
          foulMsg :=
            if targetState = TargetState.ball BallType.RED then "Hit Color first"
            else if targetState = TargetState.COLOR then "Hit Red first"
            else "Hit wrong ball (Hit " ++ ballTypeName h ++ ")",
          penalty := max 4 (max (getBallValue h) (targetValOf targetState)) }) ∧
    (∀ h pb, ts.pushShot = false → ts.foul = false → ts.firstHitType = some h →
      isValidHit targetState isFreeBall h = true → ts.potted = true →
      ts.pottedBall = some pb → isValidPot targetState isFreeBall pb.type = false →
      resolveFoul ts targetState isFreeBall touchingBall =
        { isFoul := true,
          foulMsg :=
            if targetState = TargetState.ball BallType.RED then
              "Potted " ++ ballTypeName pb.type
            else if targetState = TargetState.COLOR then "Potted RED"
            else "Potted wrong color",
          penalty := max 4 (max (getBallValue pb.type) (targetValOf targetState)) }) ∧
    (∀ h, ts.pushShot = false → ts.foul = false → ts.firstHitType = some h →
      isValidHit targetState isFreeBall h = true →
      (ts.potted = true → ∀ pb, ts.pottedBall = some pb →
        isValidPot targetState isFreeBall pb.type = true) →
      (resolveFoul ts targetState isFreeBall touchingBall).isFoul = false) := by
  refine ⟨?_, ?_, ?_, ?_, ?_, ?_, ?_⟩
  · unfold resolveFoul
    by_cases hc : (resolveFoulStage1 ts targetState isFreeBall touchingBall).isFoul = false ∧
        ts.potted = true
    · rw [if_pos hc]
      cases hpb : ts.pottedBall with
      | none =>
          simp only [hpb]
          exact resolveFoulStage1_penalty ts targetState isFreeBall touchingBall
      | some pb =>
          simp only [hpb]
          by_cases hvp : isValidPot targetState isFreeBall pb.type = true
          · rw [if_pos hvp]
            exact resolveFoulStage1_penalty ts targetState isFreeBall touchingBall
          · rw [if_neg hvp]
            exact le_max_left _ _
    · rw [if_neg hc]
      exact resolveFoulStage1_penalty ts targetState isFreeBall touchingBall
  · intro hpush
    have h1 := resolveFoulStage1_push ts targetState isFreeBall touchingBall hpush
    rw [resolveFoul_of_stage1_foul ts targetState isFreeBall touchingBall (by rw [h1]), h1]
  · intro hpush hfoul
    have h1 := resolveFoulStage1_cue ts targetState isFreeBall touchingBall hpush hfoul
    rw [resolveFoul_of_stage1_foul ts targetState isFreeBall touchingBall (by rw [h1]), h1]
  · intro hpush hfoul hfh
    have h1 := resolveFoulStage1_miss ts targetState isFreeBall touchingBall hpush hfoul hfh
    rw [resolveFoul_of_stage1_foul ts targetState isFreeBall touchingBall (by rw [h1]), h1]
  · intro h hpush hfoul hfh hvh
    have h1 := resolveFoulStage1_wrongHit ts targetState isFreeBall touchingBall h
      hpush hfoul hfh hvh
    rw [resolveFoul_of_stage1_foul ts targetState isFreeBall touchingBall (by rw [h1]), h1]
  · intro h pb hpush hfoul hfh hvh hpot hpb hvp
    have h1 := resolveFoulStage1_validHit ts targetState isFreeBall touchingBall h
      hpush hfoul hfh hvh
    unfold resolveFoul
    rw [if_pos ⟨by rw [h1], hpot⟩]
    simp only [hpb]
    rw [if_neg (by simp [hvp])]
  · intro h hpush hfoul hfh hvh hnopot
    have h1 := resolveFoulStage1_validHit ts targetState isFreeBall touchingBall h
      hpush hfoul hfh hvh
    unfold resolveFoul
    by_cases hpot : ts.potted = true
    · rw [if_pos ⟨by rw [h1], hpot⟩]
      cases hpb : ts.pottedBall with
      | none => simp only [hpb]; rw [h1]
      | some pb =>
          simp only [hpb]
          rw [if_pos (hnopot hpot pb hpb), h1]
    · rw [if_neg (by rintro ⟨-, hc⟩; exact hpot hc), h1]

/-- Witness for C1: a shot that contacts nothing is resolved as the
"Missed all balls" foul with penalty `max 4 4 = 4`. -/
theorem resolveFoul_spec_witness :
    resolveFoul ⟨false, false, none, none, false⟩ (TargetState.ball BallType.RED) false none =
      { isFoul := true, foulMsg := "Missed all balls",
        penalty := max 4 (targetValOf (TargetState.ball BallType.RED)) } :=
  (resolveFoul_spec ⟨false, false, none, none, false⟩ (TargetState.ball BallType.RED)
    false none).2.2.2.1 rfl rfl rfl

/-- **C8**: `respawnBall` on a colour ball (one that has a designated
spot) clears its potted flag and zeroes its velocity, keeping its
identity; it places the ball on its own designated spot when no other
un-potted ball is within two radii of it, otherwise on the first
unoccupied spot of the fixed priority list black, pink, blue, brown,
green, yellow (`spots`), and at the fixed overflow location beside the
table when all six are occupied. -/
theorem respawnBall_spec (balls : List Ball) (id : ℕ) (cb : Ball) (sp : BallType × Vector2)
    (hfind : balls.find? (fun b => decide (b.id = id)) = some cb)
    (hspot : spots.find? (fun s => decide (s.1 = cb.type)) = some sp) :
    ∃ nb : Ball,
      respawnBall balls id = balls.map (fun b => if b.id = id then nb else b) ∧
      nb.potted = false ∧ nb.vel = vecZero ∧ nb.type = cb.type ∧ nb.id = cb.id ∧
      (¬ isOccupied balls id sp.2 → nb.pos = sp.2) ∧
      (isOccupied balls id sp.2 →
        (∀ s, spots.find? (fun s => decide (¬ isOccupied balls id s.2)) = some s →
          nb.pos = s.2) ∧
        (spots.find? (fun s => decide (¬ isOccupied balls id s.2)) = none →
          nb.pos = overflowPos)) := by
  unfold respawnBall
  simp only [hfind, hspot]
  by_cases hocc : isOccupied balls id sp.2
  · rw [if_neg (not_not.mpr hocc)]
    cases hfree : spots.find? (fun s => decide (¬ isOccupied balls id s.2)) with
    | some s =>
        refine ⟨{ cb with potted := false, vel := vecZero, pos := s.2 }, ?_, rfl, rfl, rfl, rfl,
          fun h => absurd hocc h, fun _ => ⟨?_, ?_⟩⟩
        · rfl
        · intro s' hs'
          injection hs' with hs'
          rw [← hs']
        · intro hn
          exact Option.noConfusion hn
    | none =>
        refine ⟨{ cb with potted := false, vel := vecZero, pos := overflowPos }, ?_, rfl, rfl,
          rfl, rfl, fun h => absurd hocc h, fun _ => ⟨?_, ?_⟩⟩
        · rfl
        · intro s' hs'
          exact Option.noConfusion hs'
        · intro _
          rfl
  · rw [if_pos hocc]
    refine ⟨{ cb with potted := false, vel := vecZero, pos := sp.2 }, rfl, rfl, rfl, rfl, rfl,
      fun _ => rfl, fun h => absurd h hocc⟩

/-- A potted black ball used in the C8 witness. -/
def pottedBlackBall : Ball :=
  { id := 7, type := BallType.BLACK, pos := ⟨300, 300⟩, vel := vecZero,
    radius := BALL_RADIUS, mass := 1, potted := true, value := 7 }

/-- Witness for C8: respawning a potted black with an empty table puts
it back on the black spot, un-potted and at rest. -/
theorem respawnBall_spec_witness :
    ∃ nb : Ball,
      respawnBall [pottedBlackBall] 7
        = [pottedBlackBall].map (fun b => if b.id = 7 then nb else b) ∧
      nb.potted = false ∧ nb.vel = vecZero ∧ nb.type = pottedBlackBall.type ∧
      nb.id = pottedBlackBall.id ∧
      (¬ isOccupied [pottedBlackBall] 7 (⟨720, CENTER_Y⟩ : Vector2) →
        nb.pos = (⟨720, CENTER_Y⟩ : Vector2)) ∧
      (isOccupied [pottedBlackBall] 7 (⟨720, CENTER_Y⟩ : Vector2) →
        (∀ s, spots.find? (fun s => decide (¬ isOccupied [pottedBlackBall] 7 s.2)) = some s →
          nb.pos = s.2) ∧
        (spots.find? (fun s => decide (¬ isOccupied [pottedBlackBall] 7 s.2)) = none →
          nb.pos = overflowPos)) :=
  respawnBall_spec [pottedBlackBall] 7 pottedBlackBall (BallType.BLACK, ⟨720, CENTER_Y⟩)
    (by rfl) (by rfl)

/-- Among the snooker ball types, yellow has the least value of the
colours (every non-red, non-cue type is worth at least yellow's 2). -/
theorem yellow_le_of_colour (t : BallType) (h1 : t ≠ BallType.RED) (h2 : t ≠ BallType.CUE) :
    getBallValue BallType.YELLOW ≤ getBallValue t := by
  cases t
  · exact absurd rfl h2
  · exact absurd rfl h1
  all_goals decide

/-- With no reds left on the table, every live non-cue ball is worth at
least yellow's value. -/
theorem no_reds_value_ge_yellow (balls : List Ball) (hcount : redCount balls = 0) :
    ∀ b ∈ balls, b.potted = false → b.type ≠ BallType.CUE →
      getBallValue BallType.YELLOW ≤ getBallValue b.type := by
  intro b hb hp ht
  have hnr : b.type ≠ BallType.RED := by
    intro hr
    have hmem : b ∈ balls.filter (fun b => decide (b.type = BallType.RED ∧ b.potted = false)) := by
      rw [List.mem_filter]
      exact ⟨hb, by simp [hr, hp]⟩
    have hlen := List.length_pos_of_mem hmem
    unfold redCount at hcount
    omega
  exact yellow_le_of_colour b.type hnr ht

/-- Membership in the filtered list behind `remainingSorted`. -/
theorem mem_remainingSorted_iff (balls : List Ball) (b : Ball) :
    b ∈ remainingSorted balls ↔
      b ∈ balls ∧ b.potted = false ∧ b.type ≠ BallType.CUE := by
  unfold remainingSorted sortByValue
  rw [List.mem_mergeSort, List.mem_filter]
  simp [decide_eq_true_eq]

/-- The head of `remainingSorted` has minimal value among the live
non-cue balls. -/
theorem remainingSorted_head_le (balls : List Ball) (n : Ball) (rest : List Ball)
    (h : remainingSorted balls = n :: rest) :
    ∀ b ∈ balls, b.potted = false → b.type ≠ BallType.CUE → n.value ≤ b.value := by
  have hpw : (remainingSorted balls).Pairwise (fun a b => decide (a.value ≤ b.value) = true) := by
    unfold remainingSorted sortByValue
    apply List.sorted_mergeSort
    · intro a b c hab hbc
      simp only [decide_eq_true_eq] at *
      exact le_trans hab hbc
    · intro a b
      simp only [Bool.or_eq_true, decide_eq_true_eq]
      exact le_total a.value b.value
  rw [h] at hpw
  intro b hb hp ht
  have hbs : b ∈ remainingSorted balls := (mem_remainingSorted_iff balls b).mpr ⟨hb, hp, ht⟩
  rw [h] at hbs
  rcases List.mem_cons.mp hbs with rfl | hbs
  · exact le_refl _
  · have := (List.pairwise_cons.mp hpw).1 b hbs
    simpa [decide_eq_true_eq] using this

/-- **C5**: after every legitimate (non-foul) pot resolution of
`handleTurnEnd`: potting a red (outside free-ball) sets the target to
COLOR and opens the colour nomination; potting a colour on a COLOR
target with reds remaining sets the target back to RED (the
RED → COLOR → RED alternation); potting a colour on a COLOR target with
no reds remaining enters the clearance on target yellow — the
least-valued colour among the balls still on the table; in the
clearance, legally potting the current target colour advances the
target to the least-valued remaining ball (strictly above the potted
one when all remaining balls are worth more), and ends the frame
(game over) exactly when no non-cue ball remains. -/
theorem resolvePot_spec (targetState : TargetState) (isFreeBall : Bool) (isClearance : Bool)
    (balls : List Ball) (pb : Ball) :
    (isFreeBall = false → pb.type = BallType.RED →
      (resolvePot targetState isFreeBall isClearance balls pb).target = TargetState.COLOR ∧
      (resolvePot targetState isFreeBall isClearance balls pb).showColorSelection = true ∧
      (resolvePot targetState isFreeBall isClearance balls pb).turnContinues = true ∧
      (resolvePot targetState isFreeBall isClearance balls pb).gameOver = false) ∧
    (isFreeBall = false → pb.type ≠ BallType.RED → targetState = TargetState.COLOR →
      redCount balls > 0 →
      (resolvePot targetState isFreeBall isClearance balls pb).target
          = TargetState.ball BallType.RED ∧
      (resolvePot targetState isFreeBall isClearance balls pb).turnContinues = true ∧
      (resolvePot targetState isFreeBall isClearance balls pb).gameOver = false) ∧
    (isFreeBall = false → pb.type ≠ BallType.RED → targetState = TargetState.COLOR →
      redCount balls = 0 →
      (resolvePot targetState isFreeBall isClearance balls pb).target
          = TargetState.ball BallType.YELLOW ∧
      (resolvePot targetState isFreeBall isClearance balls pb).isClearance = true ∧
      (resolvePot targetState isFreeBall isClearance balls pb).gameOver = false ∧
      (∀ b ∈ balls, b.potted = false → b.type ≠ BallType.CUE →
        getBallValue BallType.YELLOW ≤ getBallValue b.type) ∧
      (pb.type ≠ BallType.CUE →
        getBallValue BallType.YELLOW ≤ getBallValue pb.type)) ∧
    (isFreeBall = false → pb.type ≠ BallType.RED →
      targetState = TargetState.ball pb.type → redCount balls = 0 →
      ((remainingSorted balls = [] →
        (resolvePot targetState isFreeBall isClearance balls pb).gameOver = true) ∧
       (∀ n rest, remainingSorted balls = n :: rest →
        (resolvePot targetState isFreeBall isClearance balls pb).target
            = TargetState.ball n.type ∧
        (resolvePot targetState isFreeBall isClearance balls pb).gameOver = false ∧
        (∀ b ∈ balls, b.potted = false → b.type ≠ BallType.CUE → n.value ≤ b.value) ∧
        ((∀ b ∈ balls, b.potted = false → b.type ≠ BallType.CUE → pb.value < b.value) →
          pb.value < n.value)))) := by
  refine ⟨?_, ?_, ?_, ?_⟩
  · intro hfree hred
    unfold resolvePot
    rw [if_neg (by simp [hfree]), if_pos hred]
    exact ⟨rfl, rfl, rfl, rfl⟩
  · intro hfree hred hts hcount
    unfold resolvePot
    rw [if_neg (by simp [hfree]), if_neg (by simp [hred]), if_pos hts,
      if_pos hcount]
    exact ⟨rfl, rfl, rfl⟩
  · intro hfree hred hts hcount
    unfold resolvePot
    rw [if_neg (by simp [hfree]), if_neg (by simp [hred]), if_pos hts,
      if_neg (by simp [hcount])]
    exact ⟨rfl, rfl, rfl, no_reds_value_ge_yellow balls hcount,
      fun hcue => yellow_le_of_colour pb.type hred hcue⟩
  · intro hfree hred hts hcount
    have htsc : targetState ≠ TargetState.COLOR := by
      rw [hts]
      intro hc
      exact TargetState.noConfusion hc
    unfold resolvePot
    rw [if_neg (by simp [hfree]), if_neg (by simp [hred]), if_neg htsc,
      if_neg (by simp [hcount]), if_pos hts]
    constructor
    · intro hnil
      simp only [hnil]
    · intro n rest hcons
      simp only [hcons]
      have hnmem : n ∈ balls ∧ n.potted = false ∧ n.type ≠ BallType.CUE := by
        rw [← mem_remainingSorted_iff]
        rw [hcons]
        exact List.mem_cons_self n rest
      refine ⟨trivial, trivial, remainingSorted_head_le balls n rest hcons, ?_⟩
      intro hvals
      exact hvals n hnmem.1 hnmem.2.1 hnmem.2.2

/-- A potted red ball for the C5 witness. -/
def pottedRedBall : Ball :=
  { id := 8, type := BallType.RED, pos := ⟨620, 200⟩, vel := vecZero,
    radius := BALL_RADIUS, mass := 1, potted := true, value := 1 }

/-- Witness for C5: legitimately potting a red sets the target to COLOR
with the colour nomination open. -/
theorem resolvePot_spec_witness :
    (resolvePot (TargetState.ball BallType.RED) false false [cueTestBall, pottedRedBall]
        pottedRedBall).target = TargetState.COLOR ∧
    (resolvePot (TargetState.ball BallType.RED) false false [cueTestBall, pottedRedBall]
        pottedRedBall).showColorSelection = true ∧
    (resolvePot (TargetState.ball BallType.RED) false false [cueTestBall, pottedRedBall]
        pottedRedBall).turnContinues = true ∧
    (resolvePot (TargetState.ball BallType.RED) false false [cueTestBall, pottedRedBall]
        pottedRedBall).gameOver = false :=
  (resolvePot_spec (TargetState.ball BallType.RED) false false [cueTestBall, pottedRedBall]
    pottedRedBall).1 rfl rfl

/-! ## AI shot planner (`utils/ai.ts`, claim C9) -/

/-- `Difficulty` from `types.ts`. -/
inductive Difficulty
  | EASY | MEDIUM | HARD
deriving DecidableEq

/-- `AIShot` from `utils/ai.ts`. -/
structure AIShot where
  aimDir : Vector2
  power : ℝ

/-- The `Math.random()` draws consumed by `calculateAIShot`, passed in
explicitly (one field per call site). -/
structure AIRand where
  safetyPower : ℝ
  dirX : ℝ
  dirY : ℝ
  errAngle : ℝ
  powerErr : ℝ

/-- One candidate of the potting loop of `calculateAIShot`
(`bestPot`'s record shape). -/
structure BestPot where
  ball : Ball
  dist : ℝ
  angleDiff : ℝ
  pocket : Vector2
  confidence : ℝ

/-- One iteration body of the potting loop: the ghost-ball geometry,
the `cutAngle > 1.4` rejection, and the 70/30 angle/distance confidence
blend (`Math.acos` is `Real.arccos`). -/
def evalPot (cueBall : Ball) (maxDist : ℝ) (target : Ball) (pocket : Vector2) :
    Option BestPot :=
  let toPocket := vecSub pocket target.pos
  let dirToPocket := vecNorm toPocket
  let impactPos := vecSub target.pos (vecMult dirToPocket (target.radius * 2))
  let toImpact := vecSub impactPos cueBall.pos
  let distToImpact := vecLen toImpact
  let vecCueToTarget := vecNorm (vecSub target.pos cueBall.pos)
  let cutAngle := Real.arccos (vecDot vecCueToTarget dirToPocket)
  if cutAngle > 1.4 then none
  else
    let angleScore := max 0 (1 - cutAngle / 1.3)
    let distScore := max 0 (1 - distToImpact / maxDist)
    some { ball := target, dist := distToImpact, angleDiff := cutAngle, pocket := pocket,
           confidence := angleScore * 0.7 + distScore * 0.3 }

/-- The doubly nested potting loop of `calculateAIShot`, keeping the
single best candidate by confidence (`!bestPot || confidence >
bestPot.confidence`). -/
def bestPotOf (cueBall : Ball) (maxDist : ℝ) (legalTargets : List Ball)
    (pocketList : List Vector2) : Option BestPot :=
  legalTargets.foldl
    (fun acc target =>
      pocketList.foldl
        (fun acc pocket =>
          match evalPot cueBall maxDist target pocket with
          | none => acc
          | some cand =>
              match acc with
              | none => some cand
              | some best =>
                  if cand.confidence > best.confidence then some cand else some best)
        acc)
    none

/-- The safety branch of `calculateAIShot`: aim thinly at the farthest
legal ball, or hit a random direction at power 20 when no legal target
exists.  (The source's unused `dist` local is omitted.) -/
def aiSafetyShot (cueBall : Ball) (legalTargets : List Ball) (difficulty : Difficulty)
    (rnd : AIRand) : Vector2 × ℝ :=
  let best := legalTargets.foldl
    (fun acc t =>
      let d := vecDist t.pos cueBall.pos
      if d > acc.2 then (some t, d) else acc)
    (legalTargets.head?, 0)
  match best.1 with
  | some safetyTarget =>
      let toCenter := vecSub safetyTarget.pos cueBall.pos
      let dir := vecNorm toCenter
      let perp : Vector2 := ⟨-dir.y, dir.x⟩
      let thinFactor : ℝ := if difficulty = Difficulty.HARD then 1.0 else 0.5
      let offset := vecMult perp (safetyTarget.radius * 2 * thinFactor)
      let safetyPoint := vecAdd safetyTarget.pos offset
      let finalDir := vecNorm (vecSub safetyPoint cueBall.pos)
      let power : ℝ := if difficulty = Difficulty.HARD then 45 else 30 + rnd.safetyPower * 40
      (finalDir, power)
  | none => (⟨rnd.dirX, rnd.dirY⟩, 20)

/-- `calculateAIShot` from `utils/ai.ts` (the AI pockets are the same
recessed pocket list as the physics engine's). -/
def calculateAIShot (cueBall : Ball) (balls : List Ball) (table : TableConfig)
    (difficulty : Difficulty) (targetState : TargetState) (rnd : AIRand) : AIShot :=
  let activeBalls := balls.filter (fun b => decide (b.potted = false ∧ b.type ≠ BallType.CUE))
  let legalTargets0 :=
    match targetState with
    | TargetState.COLOR => activeBalls.filter (fun b => decide (b.type ≠ BallType.RED))
    | TargetState.ball c => activeBalls.filter (fun b => decide (b.type = c))
  let legalTargets :=
    if legalTargets0 = [] ∧ activeBalls ≠ [] then activeBalls else legalTargets0
  let maxDist := Real.sqrt (table.width * table.width + table.height * table.height)
  let bestPot := bestPotOf cueBall maxDist legalTargets (pockets table)
  let safetyThreshold : ℝ :=
    match difficulty with
    | Difficulty.EASY => 0.05
    | Difficulty.MEDIUM => 0.4
    | Difficulty.HARD => 0.6
  let pair : Vector2 × ℝ :=
    match bestPot with
    | some bp =>
        if bp.confidence > safetyThreshold then
          let toPocket := vecNorm (vecSub bp.pocket bp.ball.pos)
          let impactPos := vecSub bp.ball.pos (vecMult toPocket (bp.ball.radius * 2))
          let finalDir := vecNorm (vecSub impactPos cueBall.pos)
          let power0 : ℝ := 35 + bp.dist / 8
          let power : ℝ :=
            if difficulty = Difficulty.HARD then min 85 (power0 + 10) else power0
          (finalDir, power)
        else aiSafetyShot cueBall legalTargets difficulty rnd
    | none => aiSafetyShot cueBall legalTargets difficulty rnd
  let errorAngle : ℝ :=
    match difficulty with
    | Difficulty.EASY => (rnd.errAngle - 0.5) * 0.12
    | Difficulty.MEDIUM => (rnd.errAngle - 0.5) * 0.05
    | Difficulty.HARD => (rnd.errAngle - 0.5) * 0.008
  let powerError : ℝ :=
    match difficulty with
    | Difficulty.EASY => 0.8 + rnd.powerErr * 0.4
    | Difficulty.MEDIUM => 0.9 + rnd.powerErr * 0.2
    | Difficulty.HARD => 0.98 + rnd.powerErr * 0.04
  let c := Real.cos errorAngle
  let s := Real.sin errorAngle
  { aimDir := ⟨pair.1.x * c - pair.1.y * s, pair.1.x * s + pair.1.y * c⟩,
    power := min 100 (max 5 (pair.2 * powerError)) }

/-- **C9**: for every input and every outcome of the random draws,
`calculateAIShot` returns a power inside the closed interval
`[5, 100]` — the final clamp `Math.min(100, Math.max(5, power *
powerError))` guarantees it unconditionally. -/
theorem calculateAIShot_power_bounds (cueBall : Ball) (balls : List Ball)
    (table : TableConfig) (difficulty : Difficulty) (targetState : TargetState)
    (rnd : AIRand) :
    5 ≤ (calculateAIShot cueBall balls table difficulty targetState rnd).power ∧
      (calculateAIShot cueBall balls table difficulty targetState rnd).power ≤ 100 := by
  unfold calculateAIShot
  constructor
  · exact le_min (by norm_num) (le_max_left 5 _)
  · exact min_le_left 100 _

/-- Witness for C10 at the concrete vector `(3, 4)` of length `5`. -/
theorem vecNorm_total_witness :
    vecNorm vecZero = vecZero ∧
    (vecNorm ⟨3, 4⟩ = ⟨3 / vecLen ⟨3, 4⟩, 4 / vecLen ⟨3, 4⟩⟩ ∧ vecLen (vecNorm ⟨3, 4⟩) = 1) := by
  refine ⟨vecNorm_total.1, vecNorm_total.2 ⟨3, 4⟩ ?_⟩
  intro h
  have hx : (3 : ℝ) = 0 := congrArg Vector2.x h
  norm_num at hx

end Snooker
